import Mathlib

/-!
Verification of the pyppt placement engine (src/pyppt/core.py) against its
specification.  The Python module is shallowly embedded: rectangles are
quadruples of rationals, slides are lists of shape records, Python strings
are lists of characters (`str.lower`/`str.upper` act characterwise on the
ASCII names used by the preset tables), Python's stable `sorted` is
`List.insertionSort` (any stable sort computes the same list), and code
that can raise (`ZeroDivisionError`, `ValueError`, `KeyError`, a COM
failure) returns `Except`/`Option`.  The external PowerPoint automation
host is modelled minimally: `Shapes.AddPicture` appends a picture shape
realizing exactly the requested rectangle, `Delete` removes a shape from
the slide collection, and `msoSendBackward` decrements `ZOrderPosition`
by one.  Definition names follow the source.
-/

namespace Pyppt

/-- A rectangle `[x, y, width, height]`, as the Python lists `bbox`. -/
structure Rect where
  x : ℚ
  y : ℚ
  w : ℚ
  h : ℚ
deriving DecidableEq

/-- A shape on a slide, with the object-model attributes the engine reads:
`Left/Top/Width/Height`, `Type`, `PlaceholderFormat.type`,
`PlaceholderFormat.ContainedType`, presence of a `TextFrame`, the text
length, and `ZOrderPosition`.  `id` models Python object identity. -/
structure Shape where
  id : ℕ
  left : ℚ
  top : ℚ
  width : ℚ
  height : ℚ
  shapeType : ℤ
  phType : ℤ
  containedType : ℤ
  hasTextFrame : Bool
  textLen : ℕ
  zOrderPosition : ℤ
deriving DecidableEq

/-- The `[s.Left, s.Top, s.Width, s.Height]` list built throughout the source. -/
def shapeRect (s : Shape) : Rect := ⟨s.left, s.top, s.width, s.height⟩

/-- Python exceptions raised by the engine (`ValueError` split by message). -/
inductive PyErr where
  | unknownPreset
  | keyError
  | zeroDivision
  | comError
  | onlyOneSelector
  | indexOutOfRange
deriving DecidableEq

def msoAutoShape : ℤ := 1
def msoPicture : ℤ := 13
def msoPlaceholder : ℤ := 14

/-- `pp_titles = [ppPlaceholderTitle, ppPlaceholderSubtitle, ppPlaceholderBody]`. -/
def pp_titles : List ℤ := [1, 4, 2]

/-- `pp_pictures = [ppPlaceholderObject, ppPlaceholderBitmap, ppPlaceholderPicture]`. -/
def pp_pictures : List ℤ := [7, 9, 18]

/-- Length of the sentinel text `'--TO-BE-REMOVED--'`. -/
def _TEMPTEXT_len : ℕ := ("--TO-BE-REMOVED--".toList).length

/-- Python `str.lower`, characterwise (ASCII, as in the preset names). -/
def pyLower (s : List Char) : List Char := s.map Char.toLower

/-- Python `str.upper`, characterwise (ASCII, as in the preset names). -/
def pyUpper (s : List Char) : List Char := s.map Char.toUpper

/-- Python dict lookup `d[key]` on an association list (keys are distinct). -/
def assocFind {α : Type} (l : List (List Char × α)) (key : List Char) : Option α :=
  match l with
  | [] => none
  | kv :: rest => if kv.1 = key then some kv.2 else assocFind rest key

/-! ### Preset tables -/

def presets : List (List Char × Rect) :=
  [(("center".toList), ⟨0.0415, 0.227, 0.917, 0.716⟩),
   (("full".toList), ⟨0, 0, 1, 1⟩)]

def preset_sizes : List (List Char × Rect) :=
  [(("".toList), ⟨0.0415, 0.227, 0.917, 0.716⟩),
   (("L".toList), ⟨0.0415, 0.153, 0.917, 0.790⟩),
   (("XL".toList), ⟨0.0415, 0.049, 0.917, 0.888⟩),
   (("XXL".toList), ⟨0, 0, 1, 1⟩)]

def preset_modifiers : List (List Char × Rect) :=
  [(("center".toList), ⟨0, 0, 1, 1⟩),
   (("left".toList), ⟨0, 0, 0.5, 1⟩),
   (("right".toList), ⟨0.5, 0, 0.5, 1⟩),
   (("topleft".toList), ⟨0, 0, 0.5, 0.5⟩),
   (("topright".toList), ⟨0.5, 0, 0.5, 0.5⟩),
   (("bottomleft".toList), ⟨0, 0.5, 0.5, 0.5⟩),
   (("bottomright".toList), ⟨0.5, 0.5, 0.5, 0.5⟩),
   (("221".toList), ⟨0, 0, 0.5, 0.5⟩),
   (("222".toList), ⟨0.5, 0, 0.5, 0.5⟩),
   (("223".toList), ⟨0, 0.5, 0.5, 0.5⟩),
   (("224".toList), ⟨0.5, 0.5, 0.5, 0.5⟩),
   (("231".toList), ⟨0, 0, 1/3, 0.5⟩),
   (("232".toList), ⟨1/3, 0, 1/3, 0.5⟩),
   (("233".toList), ⟨2/3, 0, 1/3, 0.5⟩),
   (("234".toList), ⟨0, 0.5, 1/3, 0.5⟩),
   (("235".toList), ⟨1/3, 0.5, 1/3, 0.5⟩),
   (("236".toList), ⟨2/3, 0.5, 1/3, 0.5⟩)]

/-! ### Preset resolver (`_is_valid_preset_name`, `_parse_preset`, `_scale_bbox`) -/

/-- `_is_valid_preset_name(name)`: the lowered name is a base preset key or
some `(modifier + size).lower()` combination. -/
def _is_valid_preset_name (name : List Char) : Bool :=
  (presets.map (fun kv => pyLower kv.1)).contains (pyLower name) ||
  ((preset_sizes.map (fun s => preset_modifiers.map (fun m => pyLower (m.1 ++ s.1)))).flatten).contains
    (pyLower name)

/-- The composition `[b0 + m0*b2, b1 + m1*b3, b2*m2, b3*m3]` from `_parse_preset`. -/
def _compose_preset (boundary bbox : Rect) : Rect :=
  ⟨boundary.x + bbox.x * boundary.w, boundary.y + bbox.y * boundary.h,
   boundary.w * bbox.w, boundary.h * bbox.h⟩

/-- The uppercased size table `{k.upper(): v for k, v in preset_sizes.items()}`. -/
def _preset_sizes_upper : List (List Char × Rect) :=
  preset_sizes.map (fun kv => (pyUpper kv.1, kv.2))

/-- The lowered modifier table `{k.lower(): v for k, v in preset_modifiers.items()}`. -/
def _preset_modifiers_lower : List (List Char × Rect) :=
  preset_modifiers.map (fun kv => (pyLower kv.1, kv.2))

/-- The lowered base table `{k.lower(): v for k, v in presets.items()}`. -/
def _presets_lower : List (List Char × Rect) :=
  presets.map (fun kv => (pyLower kv.1, kv.2))

/-- The keys of the uppercased size table (the iteration order of
`_preset_sizes`). -/
def _size_keys : List (List Char) := _preset_sizes_upper.map (fun kv => kv.1)

/-- `size = [_ for _ in _preset_sizes if name.endswith(_)]`. -/
def _size_candidates (nameU : List Char) : List (List Char) :=
  _size_keys.filter (fun s => s.isSuffixOf nameU)

/-- The `except KeyError` branch of `_parse_preset`: keep the size-key suffix
of maximal length (`max(lens)`, first hit), then look the boundary up in
the size table and the lowered remainder up in the modifier table. -/
def _parse_suffix (nameU : List Char) : Option Rect :=
  match (_size_candidates nameU).find?
      (fun s => s.length == (((_size_candidates nameU).map List.length).foldl max 0)) with
  | none => none
  | some sk =>
    match assocFind _preset_sizes_upper sk with
    | none => none
    | some boundary =>
      match assocFind _preset_modifiers_lower (pyLower (nameU.take (nameU.length - sk.length))) with
      | none => none
      | some mo => some (_compose_preset boundary mo)

/-- `_parse_preset(name)`: base-preset lookup on the lowered name, falling back
to size-suffix decomposition; `none` models the uncaught `KeyError`. -/
def _parse_preset (name : List Char) : Option Rect :=
  match assocFind _presets_lower (pyLower name) with
  | some bbox => some bbox
  | none => _parse_suffix (pyUpper name)

/-- `_scale_bbox(bbox)`: multiply by the slide dimensions iff all four
components lie in `[0, 1]`.  The slide dimensions `W, H` are passed
explicitly (the source queries `get_slide_dimensions()`). -/
def _scale_bbox (bbox : Rect) (W H : ℚ) : Rect :=
  if 0 ≤ bbox.x ∧ bbox.x ≤ 1 ∧ 0 ≤ bbox.y ∧ bbox.y ≤ 1 ∧
     0 ≤ bbox.w ∧ bbox.w ≤ 1 ∧ 0 ≤ bbox.h ∧ bbox.h ≤ 1 then
    ⟨bbox.x * W, bbox.y * H, bbox.w * W, bbox.h * H⟩
  else bbox

/-! ### Geometry utilities (`_keep_aspect`, `_intersection_area`) -/

/-- `_keep_aspect(bbox, w, h)` with explicit image dimensions `w, h`.
`none` models the `ZeroDivisionError` of the float divisions. -/
def _keep_aspect (bbox : Rect) (w h : ℚ) : Option Rect :=
  if h = 0 then none else
  let aspect_fig := w / h
  if bbox.h = 0 then none else
  let aspect_bbox := bbox.w / bbox.h
  if aspect_bbox < aspect_fig then
    if aspect_fig = 0 then none else
    let newh := bbox.w / aspect_fig
    some ⟨bbox.x, bbox.y + bbox.h / 2 - newh / 2, bbox.w, newh⟩
  else
    let neww := bbox.h * aspect_fig
    some ⟨bbox.x + bbox.w / 2 - neww / 2, bbox.y, neww, bbox.h⟩

/-- `_intersection_area(a, b)`: clamped overlap divided by `b`'s area;
`none` models the `ZeroDivisionError` when `b` has a zero dimension. -/
def _intersection_area (a b : Rect) : Option ℚ :=
  let x := max a.x b.x
  let y := max a.y b.y
  let w := min (a.x + a.w) (b.x + b.w) - x
  let h := min (a.y + a.h) (b.y + b.h) - y
  let p := if w < 0 ∨ h < 0 then ((0 : ℚ), (0 : ℚ)) else (w, h)
  if b.w = 0 ∨ b.h = 0 then none else some (p.1 * p.2 / b.w / b.h)

/-! ### Placeholder classifier -/

/-- `_is_placeholder_empty(obj)`. -/
def _is_placeholder_empty (s : Shape) : Bool :=
  if s.containedType == msoAutoShape then
    (if s.hasTextFrame then s.textLen == 0 else true)
  else false

/-- `_placeholders(Slide)` = shapes of type `msoPlaceholder`. -/
def _placeholders (slide : List Shape) : List Shape :=
  slide.filter (fun s => s.shapeType == msoPlaceholder)

/-- `_placeholders_pictures(Slide, empty)`. -/
def _placeholders_pictures (slide : List Shape) (empty : Bool) : List Shape :=
  let pics := (_placeholders slide).filter (fun p => pp_pictures.contains p.phType)
  if empty then pics.filter _is_placeholder_empty else pics

/-- `_pictures(Slide)`: pictures plus non-empty picture-type placeholders. -/
def _pictures (slide : List Shape) : List Shape :=
  slide.filter (fun s =>
    s.shapeType == msoPicture ||
    (s.shapeType == msoPlaceholder && pp_pictures.contains s.phType &&
      !(_is_placeholder_empty s)))

/-- Rebuild a shape with a new text length (placeholder fill / revert). -/
def setTextLen (s : Shape) (n : ℕ) : Shape :=
  ⟨s.id, s.left, s.top, s.width, s.height, s.shapeType, s.phType, s.containedType,
   s.hasTextFrame, n, s.zOrderPosition⟩

/-- Condition under which `_fill_empty_placeholders` fills a shape: an empty
placeholder, not a title/subtitle/body, with a text frame. -/
def _fill_cond (p : Shape) : Bool :=
  p.shapeType == msoPlaceholder && _is_placeholder_empty p &&
  !(pp_titles.contains p.phType) && p.hasTextFrame

/-- `_fill_empty_placeholders(Slide)`: writes the sentinel text into every
qualifying placeholder; returns the updated slide and the ids of the
filled shapes (the Python function returns the mutated objects). -/
def _fill_empty_placeholders (slide : List Shape) : List Shape × List ℕ :=
  (slide.map (fun p => if _fill_cond p then setTextLen p _TEMPTEXT_len else p),
   (slide.filter _fill_cond).map (fun p => p.id))

/-- `_revert_filled_placeholders(items)`: clears the text of the given shapes. -/
def _revert_filled_placeholders (slide : List Shape) (ids : List ℕ) : List Shape :=
  slide.map (fun s => if ids.contains s.id then setTextLen s 0 else s)

/-- Condition under which `_delete_empty_placeholders` deletes a shape. -/
def _delete_cond (p : Shape) : Bool :=
  p.shapeType == msoPlaceholder && _is_placeholder_empty p &&
  !(pp_titles.contains p.phType)

/-- `_delete_empty_placeholders(Slide)` (deletion order does not affect the
resulting collection). -/
def _delete_empty_placeholders (slide : List Shape) : List Shape :=
  slide.filter (fun p => !(_delete_cond p))

/-! ### Placement engine (`_add_figure` and friends) -/

/-- The `bbox` argument of `_add_figure`: `None`, a rectangle, or a preset name. -/
inductive BBoxArg where
  | auto
  | rect (r : Rect)
  | nm (s : List Char)
deriving DecidableEq

/-- Outcome of the `if replace:` block of `_add_figure`: the (possibly
replaced) target bbox, the final value of the `replace` flag, the final
`target_z_order`, the slide after the optional deletion, and the deleted
picture if any. -/
structure RepStep where
  bbox : Rect
  replaced : Bool
  tz : Option ℤ
  slide : List Shape
  deleted : Option Shape
deriving DecidableEq

/-- Result of a terminating `_add_figure` call: the final slide, the rectangle
handed to `Shapes.AddPicture`, the picture deleted by the replace step,
the `use_placeholder` and final `replace` flags, the final
`target_z_order`, the ids of the placeholders filled with sentinel text,
whether `os.remove(fname)` ran, and whether the bbox warning fired. -/
structure AddResult where
  slide : List Shape
  inserted : Rect
  deletedPic : Option Shape
  usedPlaceholder : Bool
  replaced : Bool
  targetZ : Option ℤ
  filledIds : List ℕ
  fileDeleted : Bool
  warned : Bool
deriving DecidableEq

/-- The string case of steps 2-4 of `_add_figure`: validate the preset name
(`ValueError('Unknown preset')` otherwise), parse it, scale it. -/
def _resolve_name (s : List Char) (W H : ℚ) (u : Bool) : Except PyErr (Rect × Bool) :=
  if _is_valid_preset_name s then
    match _parse_preset s with
    | some r => .ok (_scale_bbox r W H, u)
    | none => .error PyErr.keyError
  else .error PyErr.unknownPreset

/-- Steps 1-4 of `_add_figure`: placeholder lookup for `bbox=None` (falling
back to the `'Center'` preset), preset validation and parsing for string
bboxes, then `_scale_bbox`. -/
def _resolve_bbox (slide : List Shape) (W H : ℚ) (arg : BBoxArg) :
    Except PyErr (Rect × Bool) :=
  match arg with
  | .auto =>
    match _placeholders_pictures slide true with
    | [] => _resolve_name ("Center".toList) W H false
    | item :: _ => .ok (_scale_bbox (shapeRect item) W H, true)
  | .rect r => .ok (_scale_bbox r W H, false)
  | .nm s => _resolve_name s W H false

/-- The list comprehension
`[_intersection_area(bbox, [p.Left, p.Top, p.Width, p.Height]) for p in pics]`;
an exception from any element propagates. -/
def _areas (bbox : Rect) (pics : List Shape) : Except PyErr (List ℚ) :=
  match pics with
  | [] => .ok []
  | p :: rest =>
    match _intersection_area bbox (shapeRect p) with
    | none => .error PyErr.zeroDivision
    | some a =>
      match _areas bbox rest with
      | .error e => .error e
      | .ok restAreas => .ok (a :: restAreas)

/-- The `if replace:` block of `_add_figure`: sort the pictures by overlap
with the target bbox (Python's `sorted` is a stable sort, modelled by the
stable `insertionSort`; `pics[-1]` is `getLast?`); if the best overlap
exceeds 10%, remember its z-order, take its rectangle as the target, and
delete it; else clear `replace`. -/
def _replace_step (slide : List Shape) (bbox : Rect) (target_z_order : Option ℤ) :
    Except PyErr RepStep :=
  match _areas bbox (_pictures slide) with
  | .error e => .error e
  | .ok areas =>
    match (List.insertionSort (fun u v : ℚ × Shape => u.1 ≤ v.1)
        (areas.zip (_pictures slide))).getLast? with
    | none => .ok ⟨bbox, false, target_z_order, slide, none⟩
    | some ap =>
      if 1/10 < ap.1 then
        .ok ⟨shapeRect ap.2, true, some ap.2.zOrderPosition,
             slide.filter (fun s => s.id != ap.2.id), some ap.2⟩
      else .ok ⟨bbox, false, target_z_order, slide, none⟩

/-- The `if keep_aspect:` step. -/
def _aspect_step (keep : Bool) (bbox : Rect) (w h : ℚ) : Except PyErr Rect :=
  if keep then
    match _keep_aspect bbox w h with
    | some r => .ok r
    | none => .error PyErr.zeroDivision
  else .ok bbox

/-- The placeholder bookkeeping before `AddPicture`: nothing when a
placeholder is being reused; otherwise delete all empty non-title
placeholders, or (when not in a replace-in-place flow) fill them with
sentinel text.  Returns the updated slide and the filled ids. -/
def _bookkeeping (use_placeholder delete_placeholders replaced : Bool)
    (slide : List Shape) : List Shape × List ℕ :=
  if use_placeholder then (slide, [])
  else if delete_placeholders then (_delete_empty_placeholders slide, [])
  else if replaced then (slide, [])
  else _fill_empty_placeholders slide

/-- The z-order restoration loop
`while shape.ZOrderPosition > target: shape.ZOrder(msoSendBackward)`,
under the host model in which `msoSendBackward` decrements
`ZOrderPosition` by one; run only for a positive remembered target. -/
def _zorder_loop (z : ℤ) (tz : Option ℤ) : ℤ :=
  match tz with
  | some t => if 0 < t then min z t else z
  | none => z

/-- `Shapes.AddPicture` and everything after it in `_add_figure`: append the
new picture realizing the requested rectangle, adjust its z-order,
compute the bbox warning, revert the filled placeholders, and delete the
temporary file if asked. -/
def _finish (use_placeholder delete_placeholders : Bool) (st : RepStep)
    (slide3 : List Shape) (filled : List ℕ) (bbox : Rect) (delete : Bool) :
    AddResult :=
  let newId := (slide3.map (fun s => s.id)).foldr max 0 + 1
  let newZ : ℤ := (slide3.map (fun s => s.zOrderPosition)).foldr max 0 + 1
  let fz := _zorder_loop newZ st.tz
  let shape : Shape := ⟨newId, bbox.x, bbox.y, bbox.w, bbox.h, msoPicture, 0, 0, false, 0, fz⟩
  let slide4 := slide3 ++ [shape]
  let diffs := [|bbox.x - shape.left|, |bbox.y - shape.top|,
                |bbox.w - shape.width|, |bbox.h - shape.height|]
  let warned := decide (1/10 < diffs.foldr max 0)
  let slide5 :=
    if !use_placeholder && !delete_placeholders && !st.replaced then
      _revert_filled_placeholders slide4 filled
    else slide4
  ⟨slide5, bbox, st.deleted, use_placeholder, st.replaced, st.tz, filled, delete, warned⟩

/-- `_add_figure(fname, bbox, ..., delete, w, h)`.  The slide state and the
slide dimensions are explicit; `addPictureRaises` models a failure of the
`Shapes.AddPicture` automation call. -/
def _add_figure (slide : List Shape) (W H : ℚ) (arg : BBoxArg)
    (keep_aspect replace delete_placeholders : Bool) (target_z_order : Option ℤ)
    (delete : Bool) (w h : ℚ) (addPictureRaises : Bool) : Except PyErr AddResult :=
  match _resolve_bbox slide W H arg with
  | .error e => .error e
  | .ok (bbox1, use_placeholder) =>
    match (if replace then _replace_step slide bbox1 target_z_order
           else .ok ⟨bbox1, false, target_z_order, slide, none⟩ : Except PyErr RepStep) with
    | .error e => .error e
    | .ok st =>
      match _aspect_step keep_aspect st.bbox w h with
      | .error e => .error e
      | .ok bbox2 =>
        if addPictureRaises then .error PyErr.comError
        else .ok (_finish use_placeholder delete_placeholders st
          (_bookkeeping use_placeholder delete_placeholders st.replaced st.slide).1
          (_bookkeeping use_placeholder delete_placeholders st.replaced st.slide).2
          bbox2 delete)

/-- Public `add_figure`: saves the current figure to a fresh temporary file
and calls `_add_figure` with `delete=True`. -/
def add_figure (slide : List Shape) (W H : ℚ) (arg : BBoxArg)
    (keep_aspect replace delete_placeholders : Bool) (target_z_order : Option ℤ)
    (w h : ℚ) (addPictureRaises : Bool) : Except PyErr AddResult :=
  _add_figure slide W H arg keep_aspect replace delete_placeholders target_z_order
    true w h addPictureRaises

/-- Whether the temporary raster file still exists after a call: the only
`os.remove(fname)` is the last statement of `_add_figure`, so an exception
propagates before it runs. -/
def temp_file_exists_after (r : Except PyErr AddResult) : Bool :=
  match r with
  | .ok res => !res.fileDeleted
  | .error _ => true

/-! ### `_replace_figure` -/

/-- Python list indexing `l[i]`: negative indices count from the end, an
index out of range raises `IndexError` (modelled by `none`). -/
def pyGet {α : Type} (l : List α) (i : ℤ) : Option α :=
  if i < 0 then
    (if 0 ≤ (l.length : ℤ) + i then l[((l.length : ℤ) + i).toNat]? else none)
  else l[i.toNat]?

/-- The tail of the `_replace_figure` selector: the range check
`len(pics) < no or no == 0`, the stable sort of `zip(pos, pics)` by
position, and the indexing `pos_pic[no]` (negative `no`) or
`pos_pic[no-1]`. -/
def _pick_from (pics : List Shape) (pos : List ℚ) (no : ℤ) : Except PyErr Shape :=
  if (pics.length : ℤ) < no ∨ no = 0 then .error PyErr.indexOutOfRange
  else
    match (if no < 0 then
            pyGet (List.insertionSort (fun u v : ℚ × Shape => u.1 ≤ v.1) (pos.zip pics)) no
           else
            pyGet (List.insertionSort (fun u v : ℚ × Shape => u.1 ≤ v.1) (pos.zip pics)) (no - 1)) with
    | some xp => .ok xp.2
    | none => .error PyErr.indexOutOfRange

/-- The selector part of `_replace_figure`: mutual-exclusion check, default
`pic_no=1`, choice of the position key list, then `_pick_from`.  (The
final `_pick_from pics [] 1` arm is unreachable: when all four selectors
are `None` the default `pic_no=1` is in force.) -/
def _replace_figure_pick (pics : List Shape)
    (pic_no left_no top_no zorder_no : Option ℤ) : Except PyErr Shape :=
  if 1 < ([pic_no, left_no, top_no, zorder_no].countP Option.isSome) then
    .error PyErr.onlyOneSelector
  else
    match (if pic_no = none ∧ left_no = none ∧ top_no = none ∧ zorder_no = none then
           some 1 else pic_no) with
    | some k => _pick_from pics ((List.range pics.length).map (fun (i : ℕ) => (i : ℚ))) k
    | none =>
      match left_no with
      | some k => _pick_from pics (pics.map (fun s => s.left)) k
      | none =>
        match top_no with
        | some k => _pick_from pics (pics.map (fun s => s.top)) k
        | none =>
          match zorder_no with
          | some k => _pick_from pics ((pics.map (fun s => (s.zOrderPosition : ℚ))).reverse) k
          | none => _pick_from pics [] 1

/-- `_replace_figure`: select a picture, save its rectangle and z-order,
delete it, and insert the new figure at the saved rectangle with
`replace=False` and the saved z-order as target. -/
def _replace_figure (slide : List Shape) (W H : ℚ)
    (pic_no left_no top_no zorder_no : Option ℤ)
    (keep_zorder keep_aspect delete_placeholders : Bool) (w h : ℚ)
    (addPictureRaises : Bool) : Except PyErr AddResult :=
  let pics := _pictures slide
  match _replace_figure_pick pics pic_no left_no top_no zorder_no with
  | .error e => .error e
  | .ok pic =>
    let pos := shapeRect pic
    let zorder := pic.zOrderPosition
    let slide2 := slide.filter (fun s => s.id != pic.id)
    let tz := if keep_zorder then some zorder else none
    _add_figure slide2 W H (BBoxArg.rect pos) keep_aspect false delete_placeholders
      tz true w h addPictureRaises

/-! ### Spec-side definitions (used to compare code behaviour with the
specification's wording) -/

/-- Modelled from the spec wording: the overlap area of rectangles `a` and
`b` (each axis clamped at zero). -/
def specOverlapArea (a b : Rect) : ℚ :=
  max 0 (min (a.x + a.w) (b.x + b.w) - max a.x b.x) *
  max 0 (min (a.y + a.h) (b.y + b.h) - max a.y b.y)

/-- Modelled from the spec wording: rectangles `a` and `b` do not overlap. -/
def specNoOverlap (a b : Rect) : Prop :=
  min (a.x + a.w) (b.x + b.w) ≤ max a.x b.x ∨
  min (a.y + a.h) (b.y + b.h) ≤ max a.y b.y

/-! ### Supporting lemmas -/

theorem keep_aspect_of_aspect_eq (bbox : Rect) (w h : ℚ) (hh : h ≠ 0)
    (hbh : bbox.h ≠ 0) (heq : w / h = bbox.w / bbox.h) :
    _keep_aspect bbox w h = some bbox := by
  obtain ⟨bx, b_y, bw, bh⟩ := bbox
  simp only [_keep_aspect, if_neg hh, if_neg hbh]
  simp only at heq hbh
  rw [heq, if_neg (lt_irrefl _)]
  have hw : bh * (bw / bh) = bw := by field_simp
  rw [hw]
  have hx : bx + bw / 2 - bw / 2 = bx := by ring
  rw [hx]

theorem assocFind_mem {α : Type} (l : List (List Char × α)) (key : List Char)
    (v : α) (h : assocFind l key = some v) : v ∈ l.map (fun kv => kv.2) := by
  induction l with
  | nil => exact absurd h (by rw [assocFind]; simp)
  | cons kv rest ih =>
    rw [assocFind] at h
    rw [List.map_cons]
    by_cases hk : kv.1 = key
    · rw [if_pos hk] at h
      simp only [Option.some.injEq] at h
      rw [← h]
      exact List.mem_cons_self _ _
    · rw [if_neg hk] at h
      exact List.mem_cons_of_mem _ (ih h)

/-! ### Claims -/

/-- C3: `_intersection_area(a, b)` indeed returns 0 for non-overlapping
rectangles, but the claim that it never divides by zero is false: for
`b = [0, 0, 0, 1]` (zero width) the Python code raises
`ZeroDivisionError` (modelled as `none`) instead of returning 0. -/
theorem C3_cx_zero_width_divides_by_zero :
    _intersection_area ⟨0, 0, 1, 1⟩ ⟨0, 0, 0, 1⟩ = none ∧
    (none : Option ℚ) ≠ some 0 := by
  constructor
  · norm_num [_intersection_area]
  · simp

/-- C3 (amended): for all rectangles `a`, `b`, the call raises
`ZeroDivisionError` exactly when `b` has a zero width or height; otherwise
it returns the clamped overlap area of `a` and `b` divided by the area of
`b`, which is 0 whenever the rectangles do not overlap or `b` has a
negative dimension. -/
theorem C3_intersection_ratio (a b : Rect) :
    ((b.w = 0 ∨ b.h = 0) → _intersection_area a b = none) ∧
    (b.w ≠ 0 → b.h ≠ 0 → ∃ q, _intersection_area a b = some q ∧
      q = specOverlapArea a b / (b.w * b.h) ∧
      ((b.w < 0 ∨ b.h < 0) → q = 0) ∧
      (specNoOverlap a b → q = 0)) := by
  constructor
  · intro hz
    simp only [_intersection_area, if_pos hz]
  · intro hw hh
    have hbz : ¬ (b.w = 0 ∨ b.h = 0) := by tauto
    simp only [_intersection_area, if_neg hbz]
    set W := min (a.x + a.w) (b.x + b.w) - max a.x b.x with hW
    set Hh := min (a.y + a.h) (b.y + b.h) - max a.y b.y with hH
    by_cases hneg : W < 0 ∨ Hh < 0
    · rw [if_pos hneg]
      refine ⟨0, by norm_num, ?_, fun _ => rfl, fun _ => rfl⟩
      rcases hneg with hx | hy
      · have hm : max 0 W = 0 := max_eq_left hx.le
        simp [specOverlapArea, ← hW, ← hH, hm]
      · have hm : max 0 Hh = 0 := max_eq_left hy.le
        simp [specOverlapArea, ← hW, ← hH, hm]
    · push_neg at hneg
      obtain ⟨hw0, hh0⟩ := hneg
      rw [if_neg (not_or.mpr ⟨not_lt.mpr hw0, not_lt.mpr hh0⟩)]
      refine ⟨W * Hh / b.w / b.h, rfl, ?_, ?_, ?_⟩
      · have h1 : max 0 W = W := max_eq_right hw0
        have h2 : max 0 Hh = Hh := max_eq_right hh0
        rw [specOverlapArea, ← hW, ← hH, h1, h2, div_div]
      · intro hbneg
        rcases hbneg with hbx | hby
        · exfalso
          have h1 : min (a.x + a.w) (b.x + b.w) ≤ b.x + b.w := min_le_right _ _
          have h2 : b.x ≤ max a.x b.x := le_max_right _ _
          have : W ≤ b.w := by rw [hW]; linarith
          linarith
        · exfalso
          have h1 : min (a.y + a.h) (b.y + b.h) ≤ b.y + b.h := min_le_right _ _
          have h2 : b.y ≤ max a.y b.y := le_max_right _ _
          have : Hh ≤ b.h := by rw [hH]; linarith
          linarith
      · intro hno
        rcases hno with hx | hy
        · have : W = 0 := le_antisymm (by rw [hW]; linarith) hw0
          rw [this, zero_mul, zero_div, zero_div]
        · have : Hh = 0 := le_antisymm (by rw [hH]; linarith) hh0
          rw [this, mul_zero, zero_div, zero_div]

/-- Witness for C3: a concrete `b` with nonzero dimensions, quarter overlap. -/
theorem C3_witness :
    ((⟨1, 1, 2, 2⟩ : Rect).w ≠ 0) ∧
    (∃ q, _intersection_area ⟨0, 0, 2, 2⟩ ⟨1, 1, 2, 2⟩ = some q ∧
      q = specOverlapArea ⟨0, 0, 2, 2⟩ ⟨1, 1, 2, 2⟩ /
        ((⟨1, 1, 2, 2⟩ : Rect).w * (⟨1, 1, 2, 2⟩ : Rect).h) ∧
      (((⟨1, 1, 2, 2⟩ : Rect).w < 0 ∨ (⟨1, 1, 2, 2⟩ : Rect).h < 0) → q = 0) ∧
      (specNoOverlap ⟨0, 0, 2, 2⟩ ⟨1, 1, 2, 2⟩ → q = 0)) :=
  ⟨by norm_num,
   (C3_intersection_ratio ⟨0, 0, 2, 2⟩ ⟨1, 1, 2, 2⟩).2 (by norm_num) (by norm_num)⟩

/-- C6: `_keep_aspect` returns the bbox unchanged when the image aspect
equals the bbox aspect; when the image is relatively wider it keeps the
full width, sets the height to width/aspect and centers vertically; in
particular `[0,0,10,5]` with aspect 4 gives `[0,1.25,10,2.5]` and with
aspect 2 gives `[0,0,10,5]`. -/
theorem C6_keep_aspect (bbox : Rect) (w h : ℚ)
    (hbw : 0 < bbox.w) (hbh : 0 < bbox.h) (hw : 0 < w) (hh : 0 < h) :
    (w / h = bbox.w / bbox.h → _keep_aspect bbox w h = some bbox) ∧
    (bbox.w / bbox.h < w / h →
      ∃ r, _keep_aspect bbox w h = some r ∧ r.x = bbox.x ∧ r.w = bbox.w ∧
        r.h = bbox.w / (w / h) ∧ r.y + r.h / 2 = bbox.y + bbox.h / 2) ∧
    _keep_aspect ⟨0, 0, 10, 5⟩ 4 1 = some ⟨0, 1.25, 10, 2.5⟩ ∧
    _keep_aspect ⟨0, 0, 10, 5⟩ 2 1 = some ⟨0, 0, 10, 5⟩ := by
  refine ⟨fun heq => keep_aspect_of_aspect_eq bbox w h hh.ne' hbh.ne' heq, ?_, ?_, ?_⟩
  · intro hlt
    have haf : w / h ≠ 0 := (div_pos hw hh).ne'
    refine ⟨⟨bbox.x, bbox.y + bbox.h / 2 - (bbox.w / (w / h)) / 2, bbox.w, bbox.w / (w / h)⟩,
      ?_, rfl, rfl, rfl, by ring⟩
    simp only [_keep_aspect, if_neg hh.ne', if_neg hbh.ne', if_pos hlt, if_neg haf]
  · norm_num [_keep_aspect]
  · norm_num [_keep_aspect]

/-- Witness for C6: the equal-aspect instance at `bbox = [0,0,10,5]`, image `2×1`. -/
theorem C6_witness :
    (0 < (10 : ℚ)) ∧ _keep_aspect ⟨0, 0, 10, 5⟩ 2 1 = some ⟨0, 0, 10, 5⟩ :=
  ⟨by norm_num,
   (C6_keep_aspect ⟨0, 0, 10, 5⟩ 2 1 (by norm_num) (by norm_num) (by norm_num)
     (by norm_num)).1 (by norm_num)⟩

theorem _parse_suffix_xxl (u : List Char)
    (hXXL : (("XXL".toList)).isSuffixOf u = true) :
    _parse_suffix u = Option.map (fun mo => _compose_preset ⟨0, 0, 1, 1⟩ mo)
      (assocFind _preset_modifiers_lower (pyLower (u.take (u.length - 3)))) := by
  have hsufP : ("XXL".toList) <:+ u := List.isSuffixOf_iff_suffix.mp hXXL
  have hXL : (("XL".toList)).isSuffixOf u = true :=
    List.isSuffixOf_iff_suffix.mpr (List.IsSuffix.trans (by decide) hsufP)
  have hL : (("L".toList)).isSuffixOf u = true :=
    List.isSuffixOf_iff_suffix.mpr (List.IsSuffix.trans (by decide) hsufP)
  have h0 : (("".toList) : List Char).isSuffixOf u = true :=
    List.isSuffixOf_iff_suffix.mpr (List.nil_suffix)
  have hcand : _size_candidates u = _size_keys := by
    rw [_size_candidates, List.filter_eq_self]
    intro a ha
    fin_cases ha
    · exact h0
    · exact hL
    · exact hXL
    · exact hXXL
  have hfind : (_size_candidates u).find?
      (fun s => s.length == (((_size_candidates u).map List.length).foldl max 0)) =
      some (("XXL".toList)) := by
    rw [hcand]
    rfl
  have hb : assocFind _preset_sizes_upper (("XXL".toList)) =
      some ⟨0, 0, 1, 1⟩ := rfl
  have hlen : (("XXL".toList)).length = 3 := rfl
  rw [_parse_suffix, hfind]
  simp only [hb, hlen]
  cases hmod : assocFind _preset_modifiers_lower (pyLower (u.take (u.length - 3))) <;>
    simp [hmod]

/-- C7: a non-base name whose uppercase ends in `XXL` is resolved with the
`XXL` entry of the size table (the longest matching suffix, not `L`, `XL`
or the empty suffix), and `_parse_preset("TopLeftXL")` composes the `XL`
base with the `topleft` modifier, yielding exactly
`[0.0415, 0.049, 0.4585, 0.444]`. -/
theorem C7_preset_suffix_resolution :
    (∀ name : List Char,
      assocFind _presets_lower (pyLower name) = none →
      (("XXL".toList)).isSuffixOf (pyUpper name) = true →
      ∃ bXXL, assocFind _preset_sizes_upper (("XXL".toList)) = some bXXL ∧
        _parse_preset name = Option.map (fun mo => _compose_preset bXXL mo)
          (assocFind _preset_modifiers_lower
            (pyLower ((pyUpper name).take ((pyUpper name).length - 3))))) ∧
    _parse_preset (("TopLeftXL".toList)) = some ⟨0.0415, 0.049, 0.4585, 0.444⟩ := by
  constructor
  · intro name hbase hsuf
    refine ⟨⟨0, 0, 1, 1⟩, rfl, ?_⟩
    unfold _parse_preset
    rw [hbase]
    exact _parse_suffix_xxl (pyUpper name) hsuf
  · have h : _parse_preset (("TopLeftXL".toList)) =
        some (_compose_preset ⟨0.0415, 0.049, 0.917, 0.888⟩ ⟨0, 0, 0.5, 0.5⟩) := rfl
    rw [h]
    norm_num [_compose_preset]

/-- Witness for C7: the suffix branch applied to the valid name `centerXXL`. -/
theorem C7_witness :
    assocFind _presets_lower (pyLower (("centerXXL".toList))) = none ∧
    (("XXL".toList)).isSuffixOf (pyUpper (("centerXXL".toList))) = true ∧
    ∃ bXXL, assocFind _preset_sizes_upper (("XXL".toList)) = some bXXL ∧
      _parse_preset (("centerXXL".toList)) =
        Option.map (fun mo => _compose_preset bXXL mo)
          (assocFind _preset_modifiers_lower
            (pyLower ((pyUpper (("centerXXL".toList))).take
              ((pyUpper (("centerXXL".toList))).length - 3)))) :=
  ⟨rfl, rfl, (C7_preset_suffix_resolution).1 (("centerXXL".toList)) rfl rfl⟩

theorem compose_preset_in_unit (b mo : Rect)
    (hb : 0 ≤ b.x ∧ 0 ≤ b.w ∧ b.x + b.w ≤ 1 ∧ 0 ≤ b.y ∧ 0 ≤ b.h ∧ b.y + b.h ≤ 1)
    (hm : 0 ≤ mo.x ∧ 0 ≤ mo.w ∧ mo.x + mo.w ≤ 1 ∧ 0 ≤ mo.y ∧ 0 ≤ mo.h ∧ mo.y + mo.h ≤ 1) :
    (0 ≤ (_compose_preset b mo).x ∧ (_compose_preset b mo).x ≤ 1) ∧
    (0 ≤ (_compose_preset b mo).y ∧ (_compose_preset b mo).y ≤ 1) ∧
    (0 ≤ (_compose_preset b mo).w ∧ (_compose_preset b mo).w ≤ 1) ∧
    (0 ≤ (_compose_preset b mo).h ∧ (_compose_preset b mo).h ≤ 1) := by
  obtain ⟨hbx, hbw, hbxw, hby, hbh, hbyh⟩ := hb
  obtain ⟨hmx, hmw, hmxw, hmy, hmh, hmyh⟩ := hm
  simp only [_compose_preset]
  refine ⟨⟨by positivity, ?_⟩, ⟨by positivity, ?_⟩, ⟨by positivity, ?_⟩, ⟨by positivity, ?_⟩⟩
  · nlinarith
  · nlinarith
  · nlinarith
  · nlinarith

theorem preset_sizes_bounds :
    ∀ b ∈ preset_sizes.map (fun kv => kv.2),
      0 ≤ b.x ∧ 0 ≤ b.w ∧ b.x + b.w ≤ 1 ∧ 0 ≤ b.y ∧ 0 ≤ b.h ∧ b.y + b.h ≤ 1 := by
  intro b hb
  fin_cases hb <;> norm_num

theorem preset_modifiers_bounds :
    ∀ mo ∈ preset_modifiers.map (fun kv => kv.2),
      0 ≤ mo.x ∧ 0 ≤ mo.w ∧ mo.x + mo.w ≤ 1 ∧ 0 ≤ mo.y ∧ 0 ≤ mo.h ∧ mo.y + mo.h ≤ 1 := by
  intro mo hm
  fin_cases hm <;> norm_num

theorem parse_preset_cases (name : List Char) (r : Rect)
    (h : _parse_preset name = some r) :
    r ∈ presets.map (fun kv => kv.2) ∨
    ∃ b mo, b ∈ preset_sizes.map (fun kv => kv.2) ∧
      mo ∈ preset_modifiers.map (fun kv => kv.2) ∧ r = _compose_preset b mo := by
  unfold _parse_preset at h
  cases hb : assocFind _presets_lower (pyLower name) with
  | some v =>
    rw [hb] at h
    simp only [Option.some.injEq] at h
    left
    have hmem := assocFind_mem _ _ _ hb
    have hmaps : _presets_lower.map (fun kv => kv.2) = presets.map (fun kv => kv.2) := by
      rw [_presets_lower, List.map_map]
      rfl
    rw [hmaps] at hmem
    rw [← h]
    exact hmem
  | none =>
    rw [hb] at h
    simp only at h
    right
    unfold _parse_suffix at h
    split at h
    · exact absurd h (by simp)
    · split at h
      · exact absurd h (by simp)
      · rename_i sk hfind boundary hbound
        split at h
        · exact absurd h (by simp)
        · rename_i mo hmod
          simp only [Option.some.injEq] at h
          refine ⟨boundary, mo, ?_, ?_, h.symm⟩
          · have hmem := assocFind_mem _ _ _ hbound
            have hmaps : _preset_sizes_upper.map (fun kv => kv.2) =
                preset_sizes.map (fun kv => kv.2) := by
              rw [_preset_sizes_upper, List.map_map]
              rfl
            rw [hmaps] at hmem
            exact hmem
          · have hmem := assocFind_mem _ _ _ hmod
            have hmaps : _preset_modifiers_lower.map (fun kv => kv.2) =
                preset_modifiers.map (fun kv => kv.2) := by
              rw [_preset_modifiers_lower, List.map_map]
              rfl
            rw [hmaps] at hmem
            exact hmem

/-- C10: every rectangle produced by `_parse_preset` for a name accepted by
`_is_valid_preset_name` has all four components in `[0, 1]`, so
`_scale_bbox` always takes its multiplying branch on such rectangles. -/
theorem C10_presets_normalized (name : List Char) (r : Rect) (W H : ℚ)
    (hv : _is_valid_preset_name name = true) (hp : _parse_preset name = some r) :
    (0 ≤ r.x ∧ r.x ≤ 1) ∧ (0 ≤ r.y ∧ r.y ≤ 1) ∧
    (0 ≤ r.w ∧ r.w ≤ 1) ∧ (0 ≤ r.h ∧ r.h ≤ 1) ∧
    _scale_bbox r W H = ⟨r.x * W, r.y * H, r.w * W, r.h * H⟩ := by
  have hbounds : (0 ≤ r.x ∧ r.x ≤ 1) ∧ (0 ≤ r.y ∧ r.y ≤ 1) ∧
      (0 ≤ r.w ∧ r.w ≤ 1) ∧ (0 ≤ r.h ∧ r.h ≤ 1) := by
    rcases parse_preset_cases name r hp with hbase | ⟨b, mo, hbm, hmm, hr⟩
    · fin_cases hbase <;> norm_num
    · rw [hr]
      exact compose_preset_in_unit b mo (preset_sizes_bounds b hbm)
        (preset_modifiers_bounds mo hmm)
  obtain ⟨⟨h1, h2⟩, ⟨h3, h4⟩, ⟨h5, h6⟩, ⟨h7, h8⟩⟩ := hbounds
  refine ⟨⟨h1, h2⟩, ⟨h3, h4⟩, ⟨h5, h6⟩, ⟨h7, h8⟩, ?_⟩
  rw [_scale_bbox, if_pos ⟨h1, h2, h3, h4, h5, h6, h7, h8⟩]

/-- Witness for C10: the grid-code preset `233` on a 9144000×6858000 slide. -/
theorem C10_witness :
    _is_valid_preset_name (("233".toList)) = true ∧
    ((0 ≤ (_compose_preset ⟨0.0415, 0.227, 0.917, 0.716⟩ ⟨2/3, 0, 1/3, 0.5⟩).x ∧
      (_compose_preset ⟨0.0415, 0.227, 0.917, 0.716⟩ ⟨2/3, 0, 1/3, 0.5⟩).x ≤ 1) ∧
     (0 ≤ (_compose_preset ⟨0.0415, 0.227, 0.917, 0.716⟩ ⟨2/3, 0, 1/3, 0.5⟩).y ∧
      (_compose_preset ⟨0.0415, 0.227, 0.917, 0.716⟩ ⟨2/3, 0, 1/3, 0.5⟩).y ≤ 1) ∧
     (0 ≤ (_compose_preset ⟨0.0415, 0.227, 0.917, 0.716⟩ ⟨2/3, 0, 1/3, 0.5⟩).w ∧
      (_compose_preset ⟨0.0415, 0.227, 0.917, 0.716⟩ ⟨2/3, 0, 1/3, 0.5⟩).w ≤ 1) ∧
     (0 ≤ (_compose_preset ⟨0.0415, 0.227, 0.917, 0.716⟩ ⟨2/3, 0, 1/3, 0.5⟩).h ∧
      (_compose_preset ⟨0.0415, 0.227, 0.917, 0.716⟩ ⟨2/3, 0, 1/3, 0.5⟩).h ≤ 1) ∧
     _scale_bbox (_compose_preset ⟨0.0415, 0.227, 0.917, 0.716⟩ ⟨2/3, 0, 1/3, 0.5⟩)
         9144000 6858000 =
       ⟨(_compose_preset ⟨0.0415, 0.227, 0.917, 0.716⟩ ⟨2/3, 0, 1/3, 0.5⟩).x * 9144000,
        (_compose_preset ⟨0.0415, 0.227, 0.917, 0.716⟩ ⟨2/3, 0, 1/3, 0.5⟩).y * 6858000,
        (_compose_preset ⟨0.0415, 0.227, 0.917, 0.716⟩ ⟨2/3, 0, 1/3, 0.5⟩).w * 9144000,
        (_compose_preset ⟨0.0415, 0.227, 0.917, 0.716⟩ ⟨2/3, 0, 1/3, 0.5⟩).h * 6858000⟩) :=
  ⟨rfl, C10_presets_normalized (("233".toList))
    (_compose_preset ⟨0.0415, 0.227, 0.917, 0.716⟩ ⟨2/3, 0, 1/3, 0.5⟩)
    9144000 6858000 rfl rfl⟩

/-! ### Placement-engine lemmas -/

theorem mem_of_getLast?_eq {α : Type} {l : List α} {x : α}
    (h : l.getLast? = some x) : x ∈ l := by
  obtain ⟨hne, hx⟩ := List.mem_getLast?_eq_getLast (Option.mem_def.mpr h)
  rw [hx]
  exact List.getLast_mem hne

theorem pairwise_le_getLast {l : List (ℚ × Shape)}
    (hp : l.Pairwise (fun a b => a.1 ≤ b.1)) {x : ℚ × Shape}
    (hx : l.getLast? = some x) : ∀ y ∈ l, y.1 ≤ x.1 := by
  induction l with
  | nil => simp at hx
  | cons a tl ih =>
    cases tl with
    | nil =>
      simp only [List.getLast?_singleton, Option.some.injEq] at hx
      intro y hy
      simp only [List.mem_singleton] at hy
      rw [hy, hx]
    | cons b tl2 =>
      rw [List.getLast?_cons_cons] at hx
      rw [List.pairwise_cons] at hp
      obtain ⟨ha, hp'⟩ := hp
      intro y hy
      rcases List.mem_cons.mp hy with hya | hy'
      · rw [hya]
        exact ha x (mem_of_getLast?_eq hx)
      · exact ih hp' hx y hy'

theorem areas_eval (bbox : Rect) (pics : List Shape)
    (h : ∀ p ∈ pics, _intersection_area bbox (shapeRect p) ≠ none) :
    _areas bbox pics =
      .ok (pics.map (fun p => (_intersection_area bbox (shapeRect p)).getD 0)) := by
  induction pics with
  | nil => rfl
  | cons p rest ih =>
    obtain ⟨a, ha⟩ := Option.ne_none_iff_exists'.mp (h p (List.mem_cons_self _ _))
    simp only [_areas, ha, ih (fun q hq => h q (List.mem_cons_of_mem _ hq)),
      List.map_cons, Option.getD_some]

theorem zip_map_self {α β : Type} (f : α → β) (l : List α) :
    (l.map f).zip l = l.map (fun x => (f x, x)) := by
  nth_rewrite 2 [show l = l.map id from (List.map_id l).symm]
  rw [List.zip_map']
  rfl

/-- `_intersection_area` raises exactly when `b` has a zero dimension. -/
theorem intersection_area_ne_none (a b : Rect) :
    _intersection_area a b ≠ none ↔ (b.w ≠ 0 ∧ b.h ≠ 0) := by
  unfold _intersection_area
  by_cases hz : b.w = 0 ∨ b.h = 0
  · rw [if_pos hz]
    simp [hz]
    tauto
  · rw [if_neg hz]
    push_neg at hz
    simp [hz]

theorem replace_step_not_taken (slide : List Shape) (bbox : Rect) (tz : Option ℤ)
    (hwf : ∀ p ∈ _pictures slide, _intersection_area bbox (shapeRect p) ≠ none)
    (hle : ∀ p ∈ _pictures slide, ∀ q,
      _intersection_area bbox (shapeRect p) = some q → q ≤ 1/10) :
    _replace_step slide bbox tz = .ok ⟨bbox, false, tz, slide, none⟩ := by
  unfold _replace_step
  simp only [areas_eval bbox (_pictures slide) hwf, zip_map_self]
  cases hlast : (List.insertionSort (fun u v : ℚ × Shape => u.1 ≤ v.1)
      ((_pictures slide).map
        (fun p => ((_intersection_area bbox (shapeRect p)).getD 0, p)))).getLast? with
  | none => rfl
  | some ap =>
    have hmem : ap ∈ (_pictures slide).map
        (fun p => ((_intersection_area bbox (shapeRect p)).getD 0, p)) :=
      (List.perm_insertionSort _ _).mem_iff.mp (mem_of_getLast?_eq hlast)
    obtain ⟨p, hp, hap⟩ := List.mem_map.mp hmem
    obtain ⟨a, ha⟩ := Option.ne_none_iff_exists'.mp (hwf p hp)
    have hap1 : ap.1 = a := by rw [← hap]; simp [ha]
    have hle' : ap.1 ≤ 1/10 := by rw [hap1]; exact hle p hp a ha
    simp only [if_neg (not_lt.mpr hle')]

theorem replace_step_taken (slide : List Shape) (bbox : Rect) (tz : Option ℤ)
    (hwf : ∀ p ∈ _pictures slide, _intersection_area bbox (shapeRect p) ≠ none)
    (m : ℚ) (p₀ : Shape) (hp₀ : p₀ ∈ _pictures slide)
    (hm : _intersection_area bbox (shapeRect p₀) = some m) (hgt : 1/10 < m)
    (hmax : ∀ q ∈ _pictures slide, ∀ a,
      _intersection_area bbox (shapeRect q) = some a → a ≤ m) :
    ∃ pic, pic ∈ _pictures slide ∧
      _intersection_area bbox (shapeRect pic) = some m ∧
      _replace_step slide bbox tz =
        .ok ⟨shapeRect pic, true, some pic.zOrderPosition,
             slide.filter (fun s => s.id != pic.id), some pic⟩ := by
  haveI : IsTotal (ℚ × Shape) (fun u v => u.1 ≤ v.1) := ⟨fun a b => le_total a.1 b.1⟩
  haveI : IsTrans (ℚ × Shape) (fun u v => u.1 ≤ v.1) :=
    ⟨fun a b c h1 h2 => le_trans h1 h2⟩
  unfold _replace_step
  simp only [areas_eval bbox (_pictures slide) hwf, zip_map_self]
  cases hlast : (List.insertionSort (fun u v : ℚ × Shape => u.1 ≤ v.1)
      ((_pictures slide).map
        (fun p => ((_intersection_area bbox (shapeRect p)).getD 0, p)))).getLast? with
  | none =>
    exfalso
    rw [List.getLast?_eq_none_iff] at hlast
    have : ((_pictures slide).map
        (fun p => ((_intersection_area bbox (shapeRect p)).getD 0, p))) = [] := by
      have hperm := List.perm_insertionSort (fun u v : ℚ × Shape => u.1 ≤ v.1)
        ((_pictures slide).map
          (fun p => ((_intersection_area bbox (shapeRect p)).getD 0, p)))
      rw [hlast] at hperm
      exact (List.Perm.nil_eq hperm).symm
    rw [List.map_eq_nil] at this
    rw [this] at hp₀
    exact List.not_mem_nil p₀ hp₀
  | some ap =>
    have hmem : ap ∈ (_pictures slide).map
        (fun p => ((_intersection_area bbox (shapeRect p)).getD 0, p)) :=
      (List.perm_insertionSort _ _).mem_iff.mp (mem_of_getLast?_eq hlast)
    obtain ⟨p, hp, hap⟩ := List.mem_map.mp hmem
    obtain ⟨a, ha⟩ := Option.ne_none_iff_exists'.mp (hwf p hp)
    have hap1 : ap.1 = a := by rw [← hap]; simp [ha]
    have hap2 : ap.2 = p := by rw [← hap]
    have hsorted := List.sorted_insertionSort (fun u v : ℚ × Shape => u.1 ≤ v.1)
      ((_pictures slide).map
        (fun p => ((_intersection_area bbox (shapeRect p)).getD 0, p)))
    have hmax' : ∀ y ∈ (List.insertionSort (fun u v : ℚ × Shape => u.1 ≤ v.1)
        ((_pictures slide).map
          (fun p => ((_intersection_area bbox (shapeRect p)).getD 0, p)))), y.1 ≤ ap.1 :=
      pairwise_le_getLast hsorted hlast
    have hm_le : m ≤ ap.1 := by
      have h0 : ((_intersection_area bbox (shapeRect p₀)).getD 0, p₀) ∈
          (List.insertionSort (fun u v : ℚ × Shape => u.1 ≤ v.1)
            ((_pictures slide).map
              (fun p => ((_intersection_area bbox (shapeRect p)).getD 0, p)))) := by
        rw [List.Perm.mem_iff (List.perm_insertionSort _ _)]
        exact List.mem_map.mpr ⟨p₀, hp₀, rfl⟩
      have := hmax' _ h0
      simpa [hm] using this
    have hle_m : ap.1 ≤ m := by
      rw [hap1]
      exact hmax p hp a ha
    have ham : ap.1 = m := le_antisymm hle_m hm_le
    have haeq : _intersection_area bbox (shapeRect p) = some m := by
      rw [ha, ← hap1, ham]
    refine ⟨p, hp, haeq, ?_⟩
    simp only [if_pos (show 1/10 < ap.1 by rw [ham]; exact hgt), hap2]

theorem aspect_step_ok (ka : Bool) (bbox : Rect) (w h : ℚ)
    (hw : 0 < w) (hh : 0 < h) (hbh : bbox.h ≠ 0) :
    ∃ b2, _aspect_step ka bbox w h = .ok b2 := by
  cases ka with
  | false => exact ⟨bbox, rfl⟩
  | true =>
    have hsome : ∃ r, _keep_aspect bbox w h = some r := by
      unfold _keep_aspect
      rw [if_neg hh.ne', if_neg hbh]
      by_cases hlt : bbox.w / bbox.h < w / h
      · rw [if_pos hlt, if_neg (div_pos hw hh).ne']
        exact ⟨_, rfl⟩
      · rw [if_neg hlt]
        exact ⟨_, rfl⟩
    obtain ⟨r, hr⟩ := hsome
    refine ⟨r, ?_⟩
    unfold _aspect_step
    rw [if_pos rfl, hr]

theorem resolve_bbox_auto (slide : List Shape) (W H : ℚ) (ph : Shape)
    (tl : List Shape) (hph : _placeholders_pictures slide true = ph :: tl) :
    _resolve_bbox slide W H .auto = .ok (_scale_bbox (shapeRect ph) W H, true) := by
  unfold _resolve_bbox
  simp only [hph]

theorem add_figure_eval (slide : List Shape) (W H : ℚ) (arg : BBoxArg)
    (ka replace dp : Bool) (tz : Option ℤ) (d : Bool) (w h : ℚ)
    (t : Rect) (u : Bool) (st : RepStep) (b2 : Rect)
    (hres : _resolve_bbox slide W H arg = .ok (t, u))
    (hrep : (if replace then _replace_step slide t tz
             else .ok ⟨t, false, tz, slide, none⟩ : Except PyErr RepStep) = .ok st)
    (hasp : _aspect_step ka st.bbox w h = .ok b2) :
    _add_figure slide W H arg ka replace dp tz d w h false =
      .ok (_finish u dp st (_bookkeeping u dp st.replaced st.slide).1
        (_bookkeeping u dp st.replaced st.slide).2 b2 d) := by
  unfold _add_figure
  simp only [hres, hrep, hasp]
  rfl

theorem add_figure_ok_inv (slide : List Shape) (W H : ℚ) (arg : BBoxArg)
    (ka replace dp : Bool) (tz : Option ℤ) (d : Bool) (w h : ℚ) (apr : Bool)
    (r : AddResult)
    (hok : _add_figure slide W H arg ka replace dp tz d w h apr = .ok r) :
    ∃ t u st b2, _resolve_bbox slide W H arg = .ok (t, u) ∧
      (if replace then _replace_step slide t tz
       else .ok ⟨t, false, tz, slide, none⟩ : Except PyErr RepStep) = .ok st ∧
      _aspect_step ka st.bbox w h = .ok b2 ∧ apr = false ∧
      r = _finish u dp st (_bookkeeping u dp st.replaced st.slide).1
        (_bookkeeping u dp st.replaced st.slide).2 b2 d := by
  unfold _add_figure at hok
  split at hok
  · exact absurd hok (by simp)
  · rename_i t u hres2
    split at hok
    · exact absurd hok (by simp)
    · rename_i st hrep2
      split at hok
      · exact absurd hok (by simp)
      · rename_i b2 hasp2
        cases hapr : apr with
        | true => rw [hapr] at hok; exact absurd hok (by simp)
        | false =>
          rw [hapr] at hok
          simp only [if_neg Bool.false_ne_true, Except.ok.injEq] at hok
          exact ⟨t, u, st, b2, hres2, hrep2, hasp2, rfl, hok.symm⟩

theorem finish_deletedPic (u dp : Bool) (st : RepStep) (s3 : List Shape)
    (f : List ℕ) (b : Rect) (d : Bool) :
    (_finish u dp st s3 f b d).deletedPic = st.deleted := rfl

theorem finish_usedPlaceholder (u dp : Bool) (st : RepStep) (s3 : List Shape)
    (f : List ℕ) (b : Rect) (d : Bool) :
    (_finish u dp st s3 f b d).usedPlaceholder = u := rfl

theorem finish_inserted (u dp : Bool) (st : RepStep) (s3 : List Shape)
    (f : List ℕ) (b : Rect) (d : Bool) :
    (_finish u dp st s3 f b d).inserted = b := rfl

theorem finish_targetZ (u dp : Bool) (st : RepStep) (s3 : List Shape)
    (f : List ℕ) (b : Rect) (d : Bool) :
    (_finish u dp st s3 f b d).targetZ = st.tz := rfl

theorem finish_filledIds (u dp : Bool) (st : RepStep) (s3 : List Shape)
    (f : List ℕ) (b : Rect) (d : Bool) :
    (_finish u dp st s3 f b d).filledIds = f := rfl

theorem finish_fileDeleted (u dp : Bool) (st : RepStep) (s3 : List Shape)
    (f : List ℕ) (b : Rect) (d : Bool) :
    (_finish u dp st s3 f b d).fileDeleted = d := rfl

theorem add_figure_replace_noop (slide : List Shape) (W H : ℚ) (arg : BBoxArg)
    (ka dp : Bool) (tz : Option ℤ) (d : Bool) (w h : ℚ) (apr : Bool)
    (t : Rect) (u : Bool)
    (hres : _resolve_bbox slide W H arg = .ok (t, u))
    (hstep : _replace_step slide t tz = .ok ⟨t, false, tz, slide, none⟩) :
    _add_figure slide W H arg ka true dp tz d w h apr =
      _add_figure slide W H arg ka false dp tz d w h apr := by
  unfold _add_figure
  simp only [hres, hstep]
  rfl

/-- C1: with `replace=True`, when no existing picture overlaps the resolved
target rectangle by more than 10% (in particular at exactly 10%), the call
behaves exactly like an ordinary insertion and deletes nothing; when the
maximal overlap `m` exceeds 10%, the maximally-overlapping picture is
deleted, its z-order is remembered as the target z-order, and the
insertion rectangle is that picture's rectangle (aspect-fitted if
requested) instead of the originally computed target. -/
theorem C1_replace_threshold (slide : List Shape) (W H : ℚ) (arg : BBoxArg)
    (ka dp : Bool) (tz : Option ℤ) (d : Bool) (w h : ℚ) (apr : Bool)
    (t : Rect) (u : Bool)
    (hres : _resolve_bbox slide W H arg = .ok (t, u))
    (hwf : ∀ p ∈ _pictures slide, _intersection_area t (shapeRect p) ≠ none) :
    ((∀ p ∈ _pictures slide, ∀ q,
        _intersection_area t (shapeRect p) = some q → q ≤ 1/10) →
      _add_figure slide W H arg ka true dp tz d w h apr =
        _add_figure slide W H arg ka false dp tz d w h apr ∧
      (∀ r, _add_figure slide W H arg ka true dp tz d w h apr = .ok r →
        r.deletedPic = none)) ∧
    (∀ m p₀, p₀ ∈ _pictures slide →
      _intersection_area t (shapeRect p₀) = some m → 1/10 < m →
      (∀ q ∈ _pictures slide, ∀ a,
        _intersection_area t (shapeRect q) = some a → a ≤ m) →
      0 < w → 0 < h →
      ∃ pic r, pic ∈ _pictures slide ∧
        _intersection_area t (shapeRect pic) = some m ∧
        _add_figure slide W H arg ka true dp tz d w h false = .ok r ∧
        r.deletedPic = some pic ∧ r.targetZ = some pic.zOrderPosition ∧
        _aspect_step ka (shapeRect pic) w h = .ok r.inserted) := by
  constructor
  · intro hle
    have hstep := replace_step_not_taken slide t tz hwf hle
    refine ⟨add_figure_replace_noop slide W H arg ka dp tz d w h apr t u hres hstep, ?_⟩
    intro r hr
    obtain ⟨t', u', st, b2, hres', hrep', hasp', hapr', hfin⟩ :=
      add_figure_ok_inv slide W H arg ka true dp tz d w h apr r hr
    rw [hres] at hres'
    have ht : t' = t ∧ u' = u := by
      simpa [Prod.ext_iff] using hres'.symm
    rw [if_pos rfl, ht.1, hstep] at hrep'
    have hst : st = ⟨t, false, tz, slide, none⟩ := by
      simpa using hrep'.symm
    rw [hfin, finish_deletedPic, hst]
  · intro m p₀ hp₀ hm hgt hmax hw hh
    obtain ⟨pic, hpicmem, hpicm, hstep⟩ :=
      replace_step_taken slide t tz hwf m p₀ hp₀ hm hgt hmax
    have hbh : (shapeRect pic).h ≠ 0 :=
      ((intersection_area_ne_none t (shapeRect pic)).mp (hwf pic hpicmem)).2
    obtain ⟨b2, hasp⟩ := aspect_step_ok ka (shapeRect pic) w h hw hh hbh
    have hfin := add_figure_eval slide W H arg ka true dp tz d w h t u
      ⟨shapeRect pic, true, some pic.zOrderPosition,
       slide.filter (fun s => s.id != pic.id), some pic⟩ b2 hres
      (by rw [if_pos rfl]; exact hstep) hasp
    refine ⟨pic, _, hpicmem, hpicm, hfin, ?_, ?_, ?_⟩
    · rw [finish_deletedPic]
    · rw [finish_targetZ]
    · rw [finish_inserted]
      exact hasp

/-- Witness for C1: on an empty slide a `replace=True` insertion at an
absolute rectangle equals the ordinary insertion. -/
theorem C1_witness :
    _resolve_bbox [] 1 1 (BBoxArg.rect ⟨2, 3, 4, 5⟩) = .ok (⟨2, 3, 4, 5⟩, false) ∧
    _add_figure [] 1 1 (BBoxArg.rect ⟨2, 3, 4, 5⟩) false true true none true 1 1 false =
      _add_figure [] 1 1 (BBoxArg.rect ⟨2, 3, 4, 5⟩) false false true none true 1 1 false :=
  ⟨by norm_num [_resolve_bbox, _scale_bbox],
   ((C1_replace_threshold [] 1 1 (BBoxArg.rect ⟨2, 3, 4, 5⟩) false true none true 1 1
      false ⟨2, 3, 4, 5⟩ false (by norm_num [_resolve_bbox, _scale_bbox])
      (by simp [_pictures])).1 (by simp [_pictures])).1⟩

theorem finish_slide_of_useph (dp : Bool) (st : RepStep) (s3 : List Shape)
    (f : List ℕ) (b : Rect) (d : Bool) :
    ∃ sh, (_finish true dp st s3 f b d).slide = s3 ++ [sh] ∧ shapeRect sh = b :=
  ⟨_, rfl, rfl⟩

/-- C2 counterexample: with `bbox=None`, an empty picture placeholder found
(`usedPlaceholder=true`) and `replace=True`, the overlap search still runs
and the fully-overlapping existing picture IS deleted, contradicting the
claim that the replace step is skipped when a placeholder is used. -/
theorem C2_cx_replace_not_skipped :
    ∃ r, _add_figure
        [⟨1, 100, 100, 200, 150, 14, 18, 1, true, 0, 1⟩,
         ⟨2, 100, 100, 200, 150, 13, 0, 0, false, 0, 2⟩] 1000 1000 BBoxArg.auto
        false true false none true 1 1 false = .ok r ∧
      r.usedPlaceholder = true ∧
      r.deletedPic = some ⟨2, 100, 100, 200, 150, 13, 0, 0, false, 0, 2⟩ := by
  have hph : _placeholders_pictures
      [⟨1, 100, 100, 200, 150, 14, 18, 1, true, 0, 1⟩,
       ⟨2, 100, 100, 200, 150, 13, 0, 0, false, 0, 2⟩] true =
      [⟨1, 100, 100, 200, 150, 14, 18, 1, true, 0, 1⟩] := rfl
  have hpics : _pictures
      [⟨1, 100, 100, 200, 150, 14, 18, 1, true, 0, 1⟩,
       ⟨2, 100, 100, 200, 150, 13, 0, 0, false, 0, 2⟩] =
      [⟨2, 100, 100, 200, 150, 13, 0, 0, false, 0, 2⟩] := rfl
  have hres : _resolve_bbox
      [⟨1, 100, 100, 200, 150, 14, 18, 1, true, 0, 1⟩,
       ⟨2, 100, 100, 200, 150, 13, 0, 0, false, 0, 2⟩] 1000 1000 BBoxArg.auto =
      .ok (⟨100, 100, 200, 150⟩, true) := by
    rw [resolve_bbox_auto _ 1000 1000 _ _ hph]
    norm_num [_scale_bbox, shapeRect]
  have hia : _intersection_area ⟨100, 100, 200, 150⟩
      (shapeRect ⟨2, 100, 100, 200, 150, 13, 0, 0, false, 0, 2⟩) = some 1 := by
    norm_num [_intersection_area, shapeRect]
  have hwf : ∀ p ∈ _pictures
      [⟨1, 100, 100, 200, 150, 14, 18, 1, true, 0, 1⟩,
       ⟨2, 100, 100, 200, 150, 13, 0, 0, false, 0, 2⟩],
      _intersection_area ⟨100, 100, 200, 150⟩ (shapeRect p) ≠ none := by
    intro p hp
    rw [hpics, List.mem_singleton] at hp
    rw [hp, hia]
    simp
  have hmax : ∀ q ∈ _pictures
      [⟨1, 100, 100, 200, 150, 14, 18, 1, true, 0, 1⟩,
       ⟨2, 100, 100, 200, 150, 13, 0, 0, false, 0, 2⟩], ∀ a,
      _intersection_area ⟨100, 100, 200, 150⟩ (shapeRect q) = some a → a ≤ 1 := by
    intro q hq a hqa
    rw [hpics, List.mem_singleton] at hq
    rw [hq, hia] at hqa
    simp only [Option.some.injEq] at hqa
    rw [← hqa]
  obtain ⟨pic, hmem, hiam, hstep⟩ := replace_step_taken _ ⟨100, 100, 200, 150⟩ none hwf 1
    ⟨2, 100, 100, 200, 150, 13, 0, 0, false, 0, 2⟩
    (by rw [hpics]; exact List.mem_singleton.mpr rfl) hia (by norm_num) hmax
  have hpic : pic = ⟨2, 100, 100, 200, 150, 13, 0, 0, false, 0, 2⟩ := by
    rw [hpics, List.mem_singleton] at hmem
    exact hmem
  have hfin := add_figure_eval _ 1000 1000 BBoxArg.auto false true false none true 1 1
    ⟨100, 100, 200, 150⟩ true
    ⟨shapeRect pic, true, some pic.zOrderPosition,
     List.filter (fun s => s.id != pic.id)
       [⟨1, 100, 100, 200, 150, 14, 18, 1, true, 0, 1⟩,
        ⟨2, 100, 100, 200, 150, 13, 0, 0, false, 0, 2⟩], some pic⟩
    (shapeRect pic) hres (by rw [if_pos rfl]; exact hstep) rfl
  refine ⟨_, hfin, rfl, ?_⟩
  rw [finish_deletedPic, hpic]

/-- C2 (amended): the replace-by-overlap step is NOT guarded by
`usedPlaceholder`: whenever `options.replace` is true, the overlap search
over the slide's pictures runs even when an empty picture placeholder was
found and used for the target rectangle, and a picture overlapping the
placeholder's rectangle by more than 10% is deleted. -/
theorem C2_replace_runs_despite_placeholder (slide : List Shape) (W H : ℚ)
    (ka dp : Bool) (tz : Option ℤ) (d : Bool) (w h : ℚ) (ph : Shape)
    (tl : List Shape)
    (hph : _placeholders_pictures slide true = ph :: tl)
    (hwf : ∀ p ∈ _pictures slide,
      _intersection_area (_scale_bbox (shapeRect ph) W H) (shapeRect p) ≠ none)
    (m : ℚ) (p₀ : Shape) (hp₀ : p₀ ∈ _pictures slide)
    (hm : _intersection_area (_scale_bbox (shapeRect ph) W H) (shapeRect p₀) = some m)
    (hgt : 1/10 < m)
    (hmax : ∀ q ∈ _pictures slide, ∀ a,
      _intersection_area (_scale_bbox (shapeRect ph) W H) (shapeRect q) = some a → a ≤ m)
    (hw : 0 < w) (hh : 0 < h) :
    ∃ pic r, pic ∈ _pictures slide ∧
      _intersection_area (_scale_bbox (shapeRect ph) W H) (shapeRect pic) = some m ∧
      _add_figure slide W H BBoxArg.auto ka true dp tz d w h false = .ok r ∧
      r.usedPlaceholder = true ∧ r.deletedPic = some pic := by
  have hres := resolve_bbox_auto slide W H ph tl hph
  obtain ⟨pic, hmem, hiam, hstep⟩ :=
    replace_step_taken slide (_scale_bbox (shapeRect ph) W H) tz hwf m p₀ hp₀ hm hgt hmax
  have hbh : (shapeRect pic).h ≠ 0 :=
    ((intersection_area_ne_none _ _).mp (hwf pic hmem)).2
  obtain ⟨b2, hasp⟩ := aspect_step_ok ka (shapeRect pic) w h hw hh hbh
  have hfin := add_figure_eval slide W H BBoxArg.auto ka true dp tz d w h
    (_scale_bbox (shapeRect ph) W H) true
    ⟨shapeRect pic, true, some pic.zOrderPosition,
     slide.filter (fun s => s.id != pic.id), some pic⟩ b2 hres
    (by rw [if_pos rfl]; exact hstep) hasp
  exact ⟨pic, _, hmem, hiam, hfin, rfl, rfl⟩

/-- Witness for C2 (amended): the concrete two-shape slide of the
counterexample scenario, via the general theorem. -/
theorem C2_witness :
    ∃ pic r, pic ∈ _pictures
        [⟨1, 100, 100, 200, 150, 14, 18, 1, true, 0, 1⟩,
         ⟨3, 100, 100, 200, 150, 13, 0, 0, false, 0, 2⟩] ∧
      _intersection_area
        (_scale_bbox (shapeRect (⟨1, 100, 100, 200, 150, 14, 18, 1, true, 0, 1⟩ : Shape))
          1000 1000)
        (shapeRect pic) = some 1 ∧
      _add_figure
        [⟨1, 100, 100, 200, 150, 14, 18, 1, true, 0, 1⟩,
         ⟨3, 100, 100, 200, 150, 13, 0, 0, false, 0, 2⟩] 1000 1000 BBoxArg.auto
        false true false none true 1 1 false = .ok r ∧
      r.usedPlaceholder = true ∧ r.deletedPic = some pic :=
  C2_replace_runs_despite_placeholder
    [⟨1, 100, 100, 200, 150, 14, 18, 1, true, 0, 1⟩,
     ⟨3, 100, 100, 200, 150, 13, 0, 0, false, 0, 2⟩] 1000 1000 false false none true 1 1
    ⟨1, 100, 100, 200, 150, 14, 18, 1, true, 0, 1⟩ [] rfl
    (by
      intro p hp
      have hpics : _pictures
          [⟨1, 100, 100, 200, 150, 14, 18, 1, true, 0, 1⟩,
           ⟨3, 100, 100, 200, 150, 13, 0, 0, false, 0, 2⟩] =
          [⟨3, 100, 100, 200, 150, 13, 0, 0, false, 0, 2⟩] := rfl
      rw [hpics, List.mem_singleton] at hp
      rw [hp]
      have h1 : _intersection_area
          (_scale_bbox (shapeRect (⟨1, 100, 100, 200, 150, 14, 18, 1, true, 0, 1⟩ : Shape))
            1000 1000)
          (shapeRect (⟨3, 100, 100, 200, 150, 13, 0, 0, false, 0, 2⟩ : Shape)) = some 1 := by
        norm_num [_intersection_area, _scale_bbox, shapeRect]
      rw [h1]
      simp)
    1 ⟨3, 100, 100, 200, 150, 13, 0, 0, false, 0, 2⟩
    (by exact List.mem_singleton.mpr rfl)
    (by norm_num [_intersection_area, _scale_bbox, shapeRect])
    (by norm_num)
    (by
      intro q hq a hqa
      have hpics : _pictures
          [⟨1, 100, 100, 200, 150, 14, 18, 1, true, 0, 1⟩,
           ⟨3, 100, 100, 200, 150, 13, 0, 0, false, 0, 2⟩] =
          [⟨3, 100, 100, 200, 150, 13, 0, 0, false, 0, 2⟩] := rfl
      rw [hpics, List.mem_singleton] at hq
      rw [hq] at hqa
      have : _intersection_area
          (_scale_bbox (shapeRect (⟨1, 100, 100, 200, 150, 14, 18, 1, true, 0, 1⟩ : Shape))
            1000 1000)
          (shapeRect (⟨3, 100, 100, 200, 150, 13, 0, 0, false, 0, 2⟩ : Shape)) = some 1 := by
        norm_num [_intersection_area, _scale_bbox, shapeRect]
      rw [this] at hqa
      simp only [Option.some.injEq] at hqa
      rw [← hqa])
    (by norm_num) (by norm_num)

/-- C5 counterexample: with the empty Picture placeholder at
`[100,100,200,150]` but `keepAspect=true` and a 4:1 image, the picture is
inserted at `[100,150,200,50]`, not at the placeholder rectangle. -/
theorem C5_cx_keep_aspect_moves_bbox :
    ∃ r, _add_figure [⟨1, 100, 100, 200, 150, 14, 18, 1, true, 0, 1⟩] 1000 1000
        BBoxArg.auto true false true none true 4 1 false = .ok r ∧
      r.inserted = ⟨100, 150, 200, 50⟩ ∧
      r.inserted ≠ ⟨100, 100, 200, 150⟩ := by
  have hph : _placeholders_pictures [⟨1, 100, 100, 200, 150, 14, 18, 1, true, 0, 1⟩] true =
      [⟨1, 100, 100, 200, 150, 14, 18, 1, true, 0, 1⟩] := rfl
  have hres : _resolve_bbox [⟨1, 100, 100, 200, 150, 14, 18, 1, true, 0, 1⟩] 1000 1000
      BBoxArg.auto = .ok (⟨100, 100, 200, 150⟩, true) := by
    rw [resolve_bbox_auto _ 1000 1000 _ _ hph]
    norm_num [_scale_bbox, shapeRect]
  have hka : _keep_aspect ⟨100, 100, 200, 150⟩ 4 1 = some ⟨100, 150, 200, 50⟩ := by
    norm_num [_keep_aspect]
  have hasp : _aspect_step true ⟨100, 100, 200, 150⟩ 4 1 = .ok ⟨100, 150, 200, 50⟩ := by
    unfold _aspect_step
    rw [if_pos rfl, hka]
  have hfin := add_figure_eval _ 1000 1000 BBoxArg.auto true false true none true 4 1
    ⟨100, 100, 200, 150⟩ true ⟨⟨100, 100, 200, 150⟩, false, none,
      [⟨1, 100, 100, 200, 150, 14, 18, 1, true, 0, 1⟩], none⟩ ⟨100, 150, 200, 50⟩ hres
    (by rw [if_neg Bool.false_ne_true]) hasp
  refine ⟨_, hfin, rfl, ?_⟩
  rw [finish_inserted]
  intro hcontra
  have := congrArg Rect.y hcontra
  norm_num at this

/-- C5 (amended): with `intent=None` and exactly one empty Picture
placeholder at `[100,100,200,150]`, provided the replace step does not run
(`options.replace` false) and the aspect-fit step leaves the rectangle
unchanged (`keepAspect` false, or the image aspect equals 4:3), the
picture is inserted exactly at `[100,100,200,150]`, no placeholder is
filled or deleted (even when `deletePlaceholders` is true), and the final
slide is the original shape list plus the new picture. -/
theorem C5_placeholder_exact_insertion (slide : List Shape) (W H : ℚ)
    (ka dp : Bool) (tz : Option ℤ) (d : Bool) (w h : ℚ) (ph : Shape)
    (hph : _placeholders_pictures slide true = [ph])
    (hrect : shapeRect ph = ⟨100, 100, 200, 150⟩)
    (hw : 0 < w) (hh : 0 < h)
    (hka : ka = false ∨ w * 150 = h * 200) :
    ∃ r sh, _add_figure slide W H BBoxArg.auto ka false dp tz d w h false = .ok r ∧
      r.usedPlaceholder = true ∧ r.inserted = ⟨100, 100, 200, 150⟩ ∧
      r.deletedPic = none ∧ r.filledIds = [] ∧ r.slide = slide ++ [sh] ∧
      shapeRect sh = ⟨100, 100, 200, 150⟩ := by
  have hres : _resolve_bbox slide W H BBoxArg.auto = .ok (⟨100, 100, 200, 150⟩, true) := by
    rw [resolve_bbox_auto slide W H ph [] hph, hrect]
    norm_num [_scale_bbox]
  have hasp : _aspect_step ka ⟨100, 100, 200, 150⟩ w h = .ok ⟨100, 100, 200, 150⟩ := by
    rcases hka with hka | hka
    · rw [hka]
      rfl
    · cases ka with
      | false => rfl
      | true =>
        unfold _aspect_step
        rw [if_pos rfl]
        rw [keep_aspect_of_aspect_eq ⟨100, 100, 200, 150⟩ w h hh.ne' (by norm_num) ?_]
        have h200 : ((⟨100, 100, 200, 150⟩ : Rect)).w / ((⟨100, 100, 200, 150⟩ : Rect)).h =
            (200 : ℚ) / 150 := rfl
        rw [h200, div_eq_div_iff hh.ne' (by norm_num)]
        rw [hka]
        ring
  have hfin := add_figure_eval slide W H BBoxArg.auto ka false dp tz d w h
    ⟨100, 100, 200, 150⟩ true ⟨⟨100, 100, 200, 150⟩, false, tz, slide, none⟩
    ⟨100, 100, 200, 150⟩ hres (by rw [if_neg Bool.false_ne_true]) hasp
  obtain ⟨sh, hslide, hshrect⟩ := finish_slide_of_useph dp
    ⟨⟨100, 100, 200, 150⟩, false, tz, slide, none⟩ slide [] ⟨100, 100, 200, 150⟩ d
  exact ⟨_, sh, hfin, rfl, rfl, rfl, rfl, hslide, hshrect⟩

/-- Witness for C5 (amended): the concrete one-placeholder slide with
`keepAspect=false`. -/
theorem C5_witness :
    ∃ r sh, _add_figure [⟨7, 100, 100, 200, 150, 14, 18, 1, true, 0, 1⟩] 1000 1000
        BBoxArg.auto false false true none true 1 1 false = .ok r ∧
      r.usedPlaceholder = true ∧ r.inserted = ⟨100, 100, 200, 150⟩ ∧
      r.deletedPic = none ∧ r.filledIds = [] ∧
      r.slide = [⟨7, 100, 100, 200, 150, 14, 18, 1, true, 0, 1⟩] ++ [sh] ∧
      shapeRect sh = ⟨100, 100, 200, 150⟩ :=
  C5_placeholder_exact_insertion
    [⟨7, 100, 100, 200, 150, 14, 18, 1, true, 0, 1⟩] 1000 1000 false true none true 1 1
    ⟨7, 100, 100, 200, 150, 14, 18, 1, true, 0, 1⟩ rfl rfl (by norm_num) (by norm_num)
    (Or.inl rfl)

/-- C4 counterexample: after an `InvalidPreset` failure (`bbox='banana'`) and
after a failing `AddPicture` automation call, the temporary raster file
still exists — cleanup is NOT attempted on error paths, contradicting the
claim that the file is deleted before the error propagates. -/
theorem C4_cx_no_cleanup_on_error :
    add_figure [] 1 1 (BBoxArg.nm ("banana".toList)) true false true none 1 1 false =
      .error PyErr.unknownPreset ∧
    temp_file_exists_after
      (add_figure [] 1 1 (BBoxArg.nm ("banana".toList)) true false true none 1 1 false) =
      true ∧
    add_figure [] 1 1 (BBoxArg.rect ⟨2, 3, 4, 5⟩) false false true none 1 1 true =
      .error PyErr.comError ∧
    temp_file_exists_after
      (add_figure [] 1 1 (BBoxArg.rect ⟨2, 3, 4, 5⟩) false false true none 1 1 true) =
      true :=
  ⟨rfl, rfl, rfl, rfl⟩

/-- C4 (amended): `os.remove(fname)` is the final statement of
`_add_figure`, so the temporary file is deleted exactly when the call
completes successfully (`delete=True`); on every failure — `InvalidPreset`
validation, `ZeroDivisionError`, or a failing automation insertion call —
the exception propagates first and the file is left on disk. -/
theorem C4_cleanup_only_on_success (slide : List Shape) (W H : ℚ) (arg : BBoxArg)
    (ka replace dp : Bool) (tz : Option ℤ) (w h : ℚ) (apr : Bool) :
    (∀ e, add_figure slide W H arg ka replace dp tz w h apr = .error e →
      temp_file_exists_after (add_figure slide W H arg ka replace dp tz w h apr) = true) ∧
    (∀ r, add_figure slide W H arg ka replace dp tz w h apr = .ok r →
      r.fileDeleted = true ∧
      temp_file_exists_after (add_figure slide W H arg ka replace dp tz w h apr) = false) := by
  constructor
  · intro e he
    unfold temp_file_exists_after
    rw [he]
  · intro r hr
    have hr' : _add_figure slide W H arg ka replace dp tz true w h apr = .ok r := hr
    obtain ⟨t, u, st, b2, h1, h2, h3, h4, h5⟩ :=
      add_figure_ok_inv slide W H arg ka replace dp tz true w h apr r hr'
    have hfd : r.fileDeleted = true := by
      rw [h5, finish_fileDeleted]
    refine ⟨hfd, ?_⟩
    unfold temp_file_exists_after
    rw [hr]
    show (!r.fileDeleted) = false
    rw [hfd]
    rfl

theorem pick_from_neg_pos (pics : List Shape) (pos : List ℚ) (k : ℤ)
    (h1 : 1 ≤ k) (h2 : k ≤ (pics.length : ℤ)) (hlen : pos.length = pics.length) :
    _pick_from pics pos (-k) = _pick_from pics pos ((pics.length : ℤ) - k + 1) := by
  unfold _pick_from
  have hLlen : ((List.insertionSort (fun u v : ℚ × Shape => u.1 ≤ v.1)
      (pos.zip pics)).length : ℤ) = (pics.length : ℤ) := by
    rw [List.length_insertionSort, List.length_zip, hlen, min_self]
  rw [if_neg (show ¬ ((pics.length : ℤ) < -k ∨ -k = 0) by omega)]
  rw [if_neg (show ¬ ((pics.length : ℤ) < (pics.length : ℤ) - k + 1 ∨
    (pics.length : ℤ) - k + 1 = 0) by omega)]
  rw [if_pos (show -k < (0 : ℤ) by omega)]
  rw [if_neg (show ¬ ((pics.length : ℤ) - k + 1 < 0) by omega)]
  unfold pyGet
  rw [if_pos (show -k < (0 : ℤ) by omega)]
  rw [if_pos (show (0 : ℤ) ≤ ((List.insertionSort (fun u v : ℚ × Shape => u.1 ≤ v.1)
    (pos.zip pics)).length : ℤ) + -k by omega)]
  rw [if_neg (show ¬ ((pics.length : ℤ) - k + 1 - 1 < 0) by omega)]
  have hidx : (((List.insertionSort (fun u v : ℚ × Shape => u.1 ≤ v.1)
      (pos.zip pics)).length : ℤ) + -k).toNat = ((pics.length : ℤ) - k + 1 - 1).toNat := by
    omega
  rw [hidx]

/-- The four mutually exclusive selector criteria of `replaceFigure`. -/
inductive Criterion where
  | pic
  | left
  | top
  | zorder
deriving DecidableEq

/-- `_replace_figure_pick` with exactly one selector set, by criterion. -/
def pickBy (c : Criterion) (pics : List Shape) (n : ℤ) : Except PyErr Shape :=
  match c with
  | .pic => _replace_figure_pick pics (some n) none none none
  | .left => _replace_figure_pick pics none (some n) none none
  | .top => _replace_figure_pick pics none none (some n) none
  | .zorder => _replace_figure_pick pics none none none (some n)

theorem pickBy_pic (pics : List Shape) (n : ℤ) :
    pickBy .pic pics n =
      _pick_from pics ((List.range pics.length).map (fun (i : ℕ) => (i : ℚ))) n := rfl

theorem pickBy_left (pics : List Shape) (n : ℤ) :
    pickBy .left pics n = _pick_from pics (pics.map (fun s => s.left)) n := rfl

theorem pickBy_top (pics : List Shape) (n : ℤ) :
    pickBy .top pics n = _pick_from pics (pics.map (fun s => s.top)) n := rfl

theorem pickBy_zorder (pics : List Shape) (n : ℤ) :
    pickBy .zorder pics n =
      _pick_from pics ((pics.map (fun s => (s.zOrderPosition : ℚ))).reverse) n := rfl

/-- C8: for each of the four selector criteria, a negative ordinal `-k`
(`1 ≤ k ≤ n`) selects exactly the same picture as the positive ordinal
`n-k+1`: both pass the range check and index the same position of the
stably sorted position list. -/
theorem C8_negative_ordinals (c : Criterion) (pics : List Shape) (k : ℤ)
    (h1 : 1 ≤ k) (h2 : k ≤ (pics.length : ℤ)) :
    pickBy c pics (-k) = pickBy c pics ((pics.length : ℤ) - k + 1) := by
  cases c with
  | pic =>
    rw [pickBy_pic, pickBy_pic]
    exact pick_from_neg_pos pics ((List.range pics.length).map (fun (i : ℕ) => (i : ℚ))) k h1 h2
      (by rw [List.length_map, List.length_range])
  | left =>
    rw [pickBy_left, pickBy_left]
    exact pick_from_neg_pos pics _ k h1 h2 (by simp)
  | top =>
    rw [pickBy_top, pickBy_top]
    exact pick_from_neg_pos pics _ k h1 h2 (by simp)
  | zorder =>
    rw [pickBy_zorder, pickBy_zorder]
    exact pick_from_neg_pos pics _ k h1 h2 (by simp)

/-- Witness for C8: three pictures sorted by left coordinate; `leftNo=-1`
selects the same picture as `leftNo=3`. -/
theorem C8_witness :
    (1 : ℤ) ≤ 1 ∧
    pickBy Criterion.left
      [⟨1, 10, 0, 1, 1, 13, 0, 0, false, 0, 1⟩,
       ⟨2, 30, 0, 1, 1, 13, 0, 0, false, 0, 2⟩,
       ⟨3, 20, 0, 1, 1, 13, 0, 0, false, 0, 3⟩] (-1) =
    pickBy Criterion.left
      [⟨1, 10, 0, 1, 1, 13, 0, 0, false, 0, 1⟩,
       ⟨2, 30, 0, 1, 1, 13, 0, 0, false, 0, 2⟩,
       ⟨3, 20, 0, 1, 1, 13, 0, 0, false, 0, 3⟩]
      (((([⟨1, 10, 0, 1, 1, 13, 0, 0, false, 0, 1⟩,
           ⟨2, 30, 0, 1, 1, 13, 0, 0, false, 0, 2⟩,
           ⟨3, 20, 0, 1, 1, 13, 0, 0, false, 0, 3⟩] : List Shape).length : ℤ)) - 1 + 1) :=
  ⟨le_refl 1,
   C8_negative_ordinals Criterion.left
     [⟨1, 10, 0, 1, 1, 13, 0, 0, false, 0, 1⟩,
      ⟨2, 30, 0, 1, 1, 13, 0, 0, false, 0, 2⟩,
      ⟨3, 20, 0, 1, 1, 13, 0, 0, false, 0, 3⟩] 1 (le_refl 1) (by norm_num)⟩

theorem pairwise_fst_zip {R : ℚ → ℚ → Prop} (pos : List ℚ) (pics : List Shape)
    (hlen : pos.length = pics.length) (hpos : pos.Pairwise R) :
    (pos.zip pics).Pairwise (fun u v => R u.1 v.1) := by
  have hmap : (pos.zip pics).map Prod.fst = pos := List.map_fst_zip _ _ (le_of_eq hlen)
  rw [← hmap] at hpos
  exact List.pairwise_map.mp hpos

theorem pick_picno (pics : List Shape) (j : ℕ) (hj : j < pics.length) (p : Shape)
    (hp : pics[j]? = some p) :
    _replace_figure_pick pics (some ((j : ℤ) + 1)) none none none = .ok p := by
  have hconv : _replace_figure_pick pics (some ((j : ℤ) + 1)) none none none =
      _pick_from pics ((List.range pics.length).map (fun (i : ℕ) => (i : ℚ))) ((j : ℤ) + 1) :=
    rfl
  rw [hconv]
  have hlen : ((List.range pics.length).map (fun (i : ℕ) => (i : ℚ))).length = pics.length := by
    rw [List.length_map, List.length_range]
  have hsorted : List.Sorted (fun u v : ℚ × Shape => u.1 ≤ v.1)
      (((List.range pics.length).map (fun (i : ℕ) => (i : ℚ))).zip pics) := by
    have hposlt : ((List.range pics.length).map (fun (i : ℕ) => (i : ℚ))).Pairwise
        (fun a b : ℚ => a < b) :=
      List.pairwise_map.mpr ((List.pairwise_lt_range _).imp (fun hab => by exact_mod_cast hab))
    exact (pairwise_fst_zip _ pics hlen hposlt).imp (fun hab => le_of_lt hab)
  unfold _pick_from
  rw [if_neg (show ¬ ((pics.length : ℤ) < (j : ℤ) + 1 ∨ (j : ℤ) + 1 = 0) by omega)]
  rw [if_neg (show ¬ ((j : ℤ) + 1 < 0) by omega)]
  unfold pyGet
  rw [if_neg (show ¬ ((j : ℤ) + 1 - 1 < 0) by omega)]
  rw [List.Sorted.insertionSort_eq hsorted]
  have hidx : ((j : ℤ) + 1 - 1).toNat = j := by omega
  rw [hidx]
  have hkey : ((List.range pics.length).map (fun (i : ℕ) => (i : ℚ)))[j]? =
      some ((j : ℕ) : ℚ) := by
    rw [List.getElem?_map, List.getElem?_range hj]
    rfl
  have hzip : (((List.range pics.length).map (fun (i : ℕ) => (i : ℚ))).zip pics)[j]? =
      some (((j : ℕ) : ℚ), p) := List.getElem?_zip_eq_some.mpr ⟨hkey, hp⟩
  rw [hzip]

theorem pick_zorder_sorted (pics : List Shape) (k : ℕ) (h1 : 1 ≤ k)
    (h2 : k ≤ pics.length)
    (hz : pics.Pairwise (fun a b => a.zOrderPosition < b.zOrderPosition)) (p : Shape)
    (hp : pics[pics.length - k]? = some p) :
    _replace_figure_pick pics none none none (some (k : ℤ)) = .ok p := by
  have hconv : _replace_figure_pick pics none none none (some (k : ℤ)) =
      _pick_from pics ((pics.map (fun s => (s.zOrderPosition : ℚ))).reverse) (k : ℤ) := rfl
  rw [hconv]
  set pos := (pics.map (fun s => (s.zOrderPosition : ℚ))).reverse with hposdef
  have hlen : pos.length = pics.length := by
    rw [hposdef, List.length_reverse, List.length_map]
  set Z := pos.zip pics with hZdef
  have hZlen : Z.length = pics.length := by rw [hZdef, List.length_zip, hlen, min_self]
  have hposdesc : pos.Pairwise (fun a b : ℚ => b < a) := by
    rw [hposdef, List.pairwise_reverse]
    exact List.pairwise_map.mpr (hz.imp (fun hab => by exact_mod_cast hab))
  have hZdesc : Z.Pairwise (fun u v : ℚ × Shape => v.1 < u.1) :=
    pairwise_fst_zip pos pics hlen hposdesc
  have hZrev : (Z.reverse).Pairwise (fun u v : ℚ × Shape => u.1 < v.1) := by
    rw [List.pairwise_reverse]
    exact hZdesc
  haveI : IsTotal (ℚ × Shape) (fun u v => u.1 ≤ v.1) := ⟨fun a b => le_total a.1 b.1⟩
  haveI : IsTrans (ℚ × Shape) (fun u v => u.1 ≤ v.1) :=
    ⟨fun a b c hab hbc => le_trans hab hbc⟩
  have hLperm : (List.insertionSort (fun u v : ℚ × Shape => u.1 ≤ v.1) Z).Perm Z.reverse :=
    (List.perm_insertionSort _ _).trans (List.reverse_perm Z).symm
  have hLsortedle := List.sorted_insertionSort (fun u v : ℚ × Shape => u.1 ≤ v.1) Z
  have hkeysnodup : ((List.insertionSort (fun u v : ℚ × Shape => u.1 ≤ v.1) Z).map
      Prod.fst).Nodup := by
    have hzmapperm : ((List.insertionSort (fun u v : ℚ × Shape => u.1 ≤ v.1) Z).map
        Prod.fst).Perm (Z.map Prod.fst) := (List.perm_insertionSort _ _).map _
    rw [hzmapperm.nodup_iff, hZdef, List.map_fst_zip _ _ (le_of_eq hlen)]
    exact hposdesc.imp (fun hab => ne_of_gt hab)
  have hLlt : (List.insertionSort (fun u v : ℚ × Shape => u.1 ≤ v.1) Z).Pairwise
      (fun u v : ℚ × Shape => u.1 < v.1) := by
    have hne := List.pairwise_map.mp hkeysnodup
    exact (hLsortedle.and hne).imp (fun hand => lt_of_le_of_ne hand.1 hand.2)
  haveI : IsAntisymm (ℚ × Shape) (fun u v => u.1 < v.1) :=
    ⟨fun a b hab hba => absurd hba (lt_asymm hab)⟩
  have hL : List.insertionSort (fun u v : ℚ × Shape => u.1 ≤ v.1) Z = Z.reverse :=
    List.eq_of_perm_of_sorted hLperm hLlt hZrev
  unfold _pick_from
  rw [← hZdef]
  rw [if_neg (show ¬ ((pics.length : ℤ) < (k : ℤ) ∨ (k : ℤ) = 0) by omega)]
  rw [if_neg (show ¬ ((k : ℤ) < 0) by omega)]
  unfold pyGet
  rw [if_neg (show ¬ ((k : ℤ) - 1 < 0) by omega)]
  rw [hL]
  have hidx : ((k : ℤ) - 1).toNat = k - 1 := by omega
  rw [hidx]
  have hklt : k - 1 < Z.length := by rw [hZlen]; omega
  rw [List.getElem?_reverse hklt]
  have hidx2 : Z.length - 1 - (k - 1) = pics.length - k := by rw [hZlen]; omega
  rw [hidx2]
  obtain ⟨q, hq⟩ : ∃ q, pos[pics.length - k]? = some q :=
    ⟨_, List.getElem?_eq_getElem (show pics.length - k < pos.length by rw [hlen]; omega)⟩
  have hzip : Z[pics.length - k]? = some (q, p) := by
    rw [hZdef]
    exact List.getElem?_zip_eq_some.mpr ⟨hq, hp⟩
  rw [hzip]

theorem countP_gt_of_sorted (l : List Shape)
    (hz : l.Pairwise (fun a b => a.zOrderPosition < b.zOrderPosition)) :
    ∀ i p, l[i]? = some p →
      l.countP (fun q => decide (p.zOrderPosition < q.zOrderPosition)) =
        l.length - 1 - i := by
  induction l with
  | nil => intro i p hp; simp at hp
  | cons a tl ih =>
    rw [List.pairwise_cons] at hz
    obtain ⟨ha, hz'⟩ := hz
    intro i p hp
    cases i with
    | zero =>
      simp only [List.getElem?_cons_zero, Option.some.injEq] at hp
      subst hp
      rw [List.countP_cons]
      rw [if_neg (by simp : ¬ (decide (a.zOrderPosition < a.zOrderPosition) = true))]
      rw [List.countP_eq_length.mpr (fun q hq => decide_eq_true (ha q hq))]
      simp
    | succ j =>
      rw [List.getElem?_cons_succ] at hp
      have hmem : p ∈ tl := List.getElem?_mem hp
      rw [List.countP_cons]
      rw [if_neg (by
        simp only [decide_eq_true_eq]
        exact lt_asymm (ha p hmem))]
      rw [ih hz' j p hp]
      simp only [List.length_cons]
      omega

/-- C9 counterexample: when the shape collection does not enumerate in
ascending z-order, `zOrderNo=1` does NOT select the front-most picture:
the reversed-positions trick of `_replace_figure` pairs each picture with
another picture's z-order, and here picks the shape with z-order 2 while
one with z-order 3 exists. -/
theorem C9_cx_enumeration_order_matters :
    _replace_figure_pick
      (_pictures
        [⟨1, 10, 0, 1, 1, 13, 0, 0, false, 0, 2⟩,
         ⟨2, 30, 0, 1, 1, 13, 0, 0, false, 0, 3⟩,
         ⟨3, 20, 0, 1, 1, 13, 0, 0, false, 0, 1⟩]) none none none (some 1) =
      .ok ⟨1, 10, 0, 1, 1, 13, 0, 0, false, 0, 2⟩ ∧
    ∃ q ∈ _pictures
        [⟨1, 10, 0, 1, 1, 13, 0, 0, false, 0, 2⟩,
         ⟨2, 30, 0, 1, 1, 13, 0, 0, false, 0, 3⟩,
         ⟨3, 20, 0, 1, 1, 13, 0, 0, false, 0, 1⟩],
      (⟨1, 10, 0, 1, 1, 13, 0, 0, false, 0, 2⟩ : Shape).zOrderPosition <
        q.zOrderPosition := by
  constructor
  · rfl
  · refine ⟨⟨2, 30, 0, 1, 1, 13, 0, 0, false, 0, 3⟩, ?_, by decide⟩
    exact List.mem_cons_of_mem _ (List.mem_cons_self _ _)

/-- C9 (amended): when the pictures enumerate in ascending `ZOrderPosition`
order (the PowerPoint shape-collection convention), `zOrderNo=k`
(`1 ≤ k ≤ n`) selects the picture at depth `k` from the front: the one at
enumeration index `n-k` (equivalently, selected by `picNo=n-k+1`), which
has exactly `k-1` pictures with a strictly greater z-order in front of
it. -/
theorem C9_zorder_selection (pics : List Shape) (k : ℕ)
    (h1 : 1 ≤ k) (h2 : k ≤ pics.length)
    (hz : pics.Pairwise (fun a b => a.zOrderPosition < b.zOrderPosition)) :
    ∃ p, pics[pics.length - k]? = some p ∧
      _replace_figure_pick pics none none none (some (k : ℤ)) = .ok p ∧
      _replace_figure_pick pics (some ((pics.length : ℤ) - k + 1)) none none none =
        .ok p ∧
      pics.countP (fun q => decide (p.zOrderPosition < q.zOrderPosition)) = k - 1 := by
  have hjlt : pics.length - k < pics.length := by omega
  obtain ⟨p, hp⟩ : ∃ p, pics[pics.length - k]? = some p :=
    ⟨_, List.getElem?_eq_getElem hjlt⟩
  refine ⟨p, hp, pick_zorder_sorted pics k h1 h2 hz p hp, ?_, ?_⟩
  · have hcast : (pics.length : ℤ) - k + 1 = ((pics.length - k : ℕ) : ℤ) + 1 := by omega
    rw [hcast]
    exact pick_picno pics (pics.length - k) hjlt p hp
  · rw [countP_gt_of_sorted pics hz (pics.length - k) p hp]
    omega

/-- Witness for C9 (amended): three pictures in ascending z-order; `zOrderNo=1`
selects the front-most one (z-order 3). -/
theorem C9_witness :
    ∃ p, (([⟨1, 5, 0, 1, 1, 13, 0, 0, false, 0, 1⟩,
            ⟨2, 6, 0, 1, 1, 13, 0, 0, false, 0, 2⟩,
            ⟨3, 7, 0, 1, 1, 13, 0, 0, false, 0, 3⟩] : List Shape))[
        ([⟨1, 5, 0, 1, 1, 13, 0, 0, false, 0, 1⟩,
          ⟨2, 6, 0, 1, 1, 13, 0, 0, false, 0, 2⟩,
          ⟨3, 7, 0, 1, 1, 13, 0, 0, false, 0, 3⟩] : List Shape).length - 1]? = some p ∧
      _replace_figure_pick
        [⟨1, 5, 0, 1, 1, 13, 0, 0, false, 0, 1⟩,
         ⟨2, 6, 0, 1, 1, 13, 0, 0, false, 0, 2⟩,
         ⟨3, 7, 0, 1, 1, 13, 0, 0, false, 0, 3⟩] none none none (some ((1 : ℕ) : ℤ)) =
        .ok p ∧
      _replace_figure_pick
        [⟨1, 5, 0, 1, 1, 13, 0, 0, false, 0, 1⟩,
         ⟨2, 6, 0, 1, 1, 13, 0, 0, false, 0, 2⟩,
         ⟨3, 7, 0, 1, 1, 13, 0, 0, false, 0, 3⟩]
        (some ((([⟨1, 5, 0, 1, 1, 13, 0, 0, false, 0, 1⟩,
                  ⟨2, 6, 0, 1, 1, 13, 0, 0, false, 0, 2⟩,
                  ⟨3, 7, 0, 1, 1, 13, 0, 0, false, 0, 3⟩] : List Shape).length : ℤ) - 1 + 1))
        none none none = .ok p ∧
      ([⟨1, 5, 0, 1, 1, 13, 0, 0, false, 0, 1⟩,
        ⟨2, 6, 0, 1, 1, 13, 0, 0, false, 0, 2⟩,
        ⟨3, 7, 0, 1, 1, 13, 0, 0, false, 0, 3⟩] : List Shape).countP
          (fun q => decide (p.zOrderPosition < q.zOrderPosition)) = 1 - 1 :=
  C9_zorder_selection
    [⟨1, 5, 0, 1, 1, 13, 0, 0, false, 0, 1⟩,
     ⟨2, 6, 0, 1, 1, 13, 0, 0, false, 0, 2⟩,
     ⟨3, 7, 0, 1, 1, 13, 0, 0, false, 0, 3⟩] 1 (le_refl 1) (by norm_num)
    (by simp [List.pairwise_cons])

/-- Witness for C4 (amended): a successful ordinary insertion on an empty
slide deletes the temporary file. -/
theorem C4_witness :
    ∃ r, add_figure [] 1 1 (BBoxArg.rect ⟨2, 3, 4, 5⟩) false false true none 1 1 false =
      .ok r ∧ r.fileDeleted = true ∧
      temp_file_exists_after
        (add_figure [] 1 1 (BBoxArg.rect ⟨2, 3, 4, 5⟩) false false true none 1 1 false) =
        false := by
  refine ⟨_, rfl, ?_⟩
  exact (C4_cleanup_only_on_success [] 1 1 (BBoxArg.rect ⟨2, 3, 4, 5⟩) false false true
    none 1 1 false).2 _ rfl

end Pyppt
